import Mathlib

/-!
# Staged lowering pipeline and legality gate

A shallow embedding of two pieces of the compiler:

* `VerifyLinalgTransformLegalityPass::runOnOperation`
  (`Codegen/LLVMCPU/VerifyLinalgTransformLegality.cpp`), the legality gate;
* `buildIREEVMTransformPassPipeline` (`Pipelines/Pipelines.cpp`), the stage-list builder.

The program tree, the operation walker and the diagnostics are library code of MLIR and are
modelled after its headers; the option structs and the sub-pipeline builders are declared in
headers that are not part of the sources at hand and are modelled as described at each
definition.
-/

namespace mlir

/-! ## Program tree -/

mutual
/-- An operation: its registered name (the kind tag), its source location, its attribute
dictionary and the regions it owns. -/
inductive Operation where
  | mk (name : String) (loc : Nat) (attrs : List (String × String)) (regions : List Region)
/-- A region owns an ordered sequence of blocks. -/
inductive Region where
  | mk (blocks : List Block)
/-- A block owns an ordered sequence of operations. -/
inductive Block where
  | mk (operations : List Operation)
end

/-- Registered name of the operation. -/
def Operation.name : Operation → String
  | .mk n _ _ _ => n

/-- Source location of the operation. -/
def Operation.loc : Operation → Nat
  | .mk _ l _ _ => l

/-- Attribute dictionary of the operation. -/
def Operation.attrs : Operation → List (String × String)
  | .mk _ _ a _ => a

/-- Regions owned by the operation. -/
def Operation.regions : Operation → List Region
  | .mk _ _ _ rs => rs

/-- `Operation::hasAttr(StringRef name)`: the attribute dictionary has an entry of that name. -/
def Operation.hasAttr (op : Operation) (name : String) : Bool :=
  op.attrs.any (fun a => a.1 == name)

/-- `Operation::removeAttr(StringRef name)`: the attribute dictionary without the entries of
that name. -/
def Operation.removeAttr (op : Operation) (name : String) : List (String × String) :=
  op.attrs.filter (fun a => !(a.1 == name))

/-! ## Diagnostics -/

/-- Severity of a diagnostic. -/
inductive DiagnosticSeverity where
  | Note
  | Warning
  | Error
  | Remark
  deriving DecidableEq, Repr

/-- A diagnostic as produced by `Operation::emitError`: an error at the location of the
operation it was emitted on, with a message; the operation itself is kept, as the diagnostic
names it. -/
structure Diagnostic where
  severity : DiagnosticSeverity
  loc : Nat
  message : String
  op : Operation

/-- `Operation::emitError(message)`: the diagnostic reported for `op`. -/
def Operation.emitError (op : Operation) (message : String) : Diagnostic :=
  { severity := DiagnosticSeverity.Error, loc := op.loc, message := message, op := op }

/-! ## Walker (`mlir/IR/Visitors.h`) -/

/-- Order in which `walk` calls the callback on an operation relative to the operations nested
in it. -/
inductive WalkOrder where
  | PreOrder
  | PostOrder
  deriving DecidableEq, Repr

/-- Result of a walk callback, and of a walk. -/
inductive WalkResult where
  | interrupt
  | advance
  | skip
  deriving DecidableEq, Repr

/-- `WalkResult::wasInterrupted`. -/
def WalkResult.wasInterrupted : WalkResult → Bool
  | .interrupt => true
  | _ => false

/-- `WalkResult::wasSkipped`. -/
def WalkResult.wasSkipped : WalkResult → Bool
  | .skip => true
  | _ => false

/-- A walk callback. It is handed the operation and may set and remove attributes of it, and
emit diagnostics: called on an operation with the diagnostics emitted so far, it returns its
result, the attribute dictionary of the operation as the call leaves it, and the diagnostics
emitted so far afterwards. Erasing or restructuring the operation is outside the model. -/
abbrev WalkCallback :=
  Operation → List Diagnostic → WalkResult × List (String × String) × List Diagnostic

mutual
/-- `detail::walk(Operation *op, function_ref<WalkResult(Operation *)> callback, WalkOrder order)`
of MLIR, on the mutable tree. In pre-order the callback runs on `op` first (a skip leaves the
nested operations out, an interrupt ends the walk); then the regions, their blocks and their
operations are walked in stored order, an interrupt ending the walk; in post-order the
callback runs on `op` last. The result holds the operation as the walk leaves it: with the
attributes the callback left on it, and with its regions as the walk of the nested operations
left them. -/
def detail.walk (callback : WalkCallback) (order : WalkOrder) :
    Operation → List Diagnostic → WalkResult × Operation × List Diagnostic
  | .mk n l a rs, diags =>
    match order with
    | .PreOrder =>
      match callback (.mk n l a rs) diags with
      | (.skip, a1, diags1) => (.advance, .mk n l a1 rs, diags1)
      | (.interrupt, a1, diags1) => (.interrupt, .mk n l a1 rs, diags1)
      | (.advance, a1, diags1) =>
        match detail.walkRegions callback order rs diags1 with
        | (.interrupt, rs2, diags2) => (.interrupt, .mk n l a1 rs2, diags2)
        | (_, rs2, diags2) => (.advance, .mk n l a1 rs2, diags2)
    | .PostOrder =>
      match detail.walkRegions callback order rs diags with
      | (.interrupt, rs1, diags1) => (.interrupt, .mk n l a rs1, diags1)
      | (_, rs1, diags1) =>
        match callback (.mk n l a rs1) diags1 with
        | (result, a1, diags2) => (result, .mk n l a1 rs1, diags2)
/-- The loop `for (auto &region : op->getRegions())` of `detail::walk`. -/
def detail.walkRegions (callback : WalkCallback) (order : WalkOrder) :
    List Region → List Diagnostic → WalkResult × List Region × List Diagnostic
  | [], diags => (.advance, [], diags)
  | (.mk bs) :: rs, diags =>
    match detail.walkBlocks callback order bs diags with
    | (.interrupt, bs1, diags1) => (.interrupt, .mk bs1 :: rs, diags1)
    | (_, bs1, diags1) =>
      match detail.walkRegions callback order rs diags1 with
      | (result, rs1, diags2) => (result, .mk bs1 :: rs1, diags2)
/-- The loop `for (auto &block : region)` of `detail::walk`. -/
def detail.walkBlocks (callback : WalkCallback) (order : WalkOrder) :
    List Block → List Diagnostic → WalkResult × List Block × List Diagnostic
  | [], diags => (.advance, [], diags)
  | (.mk ops) :: bs, diags =>
    match detail.walkOperations callback order ops diags with
    | (.interrupt, ops1, diags1) => (.interrupt, .mk ops1 :: bs, diags1)
    | (_, ops1, diags1) =>
      match detail.walkBlocks callback order bs diags1 with
      | (result, bs1, diags2) => (result, .mk ops1 :: bs1, diags2)
/-- The loop `for (auto &nestedOp : block)` of `detail::walk`. -/
def detail.walkOperations (callback : WalkCallback) (order : WalkOrder) :
    List Operation → List Diagnostic → WalkResult × List Operation × List Diagnostic
  | [], diags => (.advance, [], diags)
  | op :: ops, diags =>
    match detail.walk callback order op diags with
    | (.interrupt, op1, diags1) => (.interrupt, op1 :: ops, diags1)
    | (_, op1, diags1) =>
      match detail.walkOperations callback order ops diags1 with
      | (result, ops1, diags2) => (result, op1 :: ops1, diags2)
end

/-- The wrapper `detail::walk` builds around a callback that takes a derived operation type:
the callback runs on the operations for which `dyn_cast` succeeds, the others advance and
are left as they are. -/
def detail.wrapperFn (isa : Operation → Bool) (callback : WalkCallback) : WalkCallback :=
  fun op diags => if isa op then callback op diags else (WalkResult.advance, op.attrs, diags)

/-- `Operation::walk<Order = WalkOrder::PostOrder>(callback)` for a callback on a derived
operation type: the order is a template parameter whose default is post-order. The result
holds the result of the walk, the operation as the walk leaves it, and the diagnostics. -/
def Operation.walk (isa : Operation → Bool) (callback : WalkCallback)
    (moduleOp : Operation) (diags : List Diagnostic)
    (order : WalkOrder := WalkOrder.PostOrder) : WalkResult × Operation × List Diagnostic :=
  detail.walk (detail.wrapperFn isa callback) order moduleOp diags

namespace linalg

/-- `linalg::LinalgTransforms::kLinalgTransformMarker`. -/
def LinalgTransforms.kLinalgTransformMarker : String := "__internal_linalg_transform__"

end linalg

namespace iree_compiler

/-! ## Legality gate (`VerifyLinalgTransformLegality.cpp`) -/

/-- State of a pass run: the operation it runs on, as the pass leaves it, the diagnostics
emitted, and whether `signalPassFailure` was called. -/
structure PassState where
  moduleOp : Operation
  diagnostics : List Diagnostic
  failed : Bool

/-- The lambda passed to `walk` in `runOnOperation`: on an operation that has the Linalg
transform marker it emits an error, which converts to an interrupt; otherwise it advances.
It calls `hasAttr` and `emitError` and nothing that sets or removes an attribute, so the
attribute dictionary it leaves is the one of the operation. -/
def VerifyLinalgTransformLegalityPass.callback : WalkCallback :=
  fun op diags =>
    if op.hasAttr linalg.LinalgTransforms.kLinalgTransformMarker then
      (WalkResult.interrupt, op.attrs,
        diags ++ [op.emitError "expected no Linalg transform markers"])
    else
      (WalkResult.advance, op.attrs, diags)

/-- `VerifyLinalgTransformLegalityPass::runOnOperation`. The parameter `isLinalgOp` is
`dyn_cast<linalg::LinalgOp>`: whether the operation implements the Linalg interface. The
operation of the state is the module as the walk leaves it. -/
def VerifyLinalgTransformLegalityPass.runOnOperation (isLinalgOp : Operation → Bool)
    (moduleOp : Operation) : PassState :=
  let walked :=
    moduleOp.walk isLinalgOp VerifyLinalgTransformLegalityPass.callback []
  if walked.1.wasInterrupted then
    { moduleOp := walked.2.1, diagnostics := walked.2.2, failed := true }
  else
    { moduleOp := walked.2.1, diagnostics := walked.2.2, failed := false }


/-! ## Vocabulary of the legality-gate claims -/

mutual
/-- Operations of the tree in pre-order: an operation, then the operations nested in its
regions, regions, blocks and operations in stored order. -/
def preOrder : Operation → List Operation
  | .mk n l a rs => .mk n l a rs :: preOrderRegions rs
/-- Pre-order listing of the operations of a sequence of regions. -/
def preOrderRegions : List Region → List Operation
  | [] => []
  | (.mk bs) :: rs => preOrderBlocks bs ++ preOrderRegions rs
/-- Pre-order listing of the operations of a sequence of blocks. -/
def preOrderBlocks : List Block → List Operation
  | [] => []
  | (.mk ops) :: bs => preOrderOperations ops ++ preOrderBlocks bs
/-- Pre-order listing of a sequence of operations. -/
def preOrderOperations : List Operation → List Operation
  | [] => []
  | op :: ops => preOrder op ++ preOrderOperations ops
end

mutual
/-- Operations of the tree in post-order: the operations nested in the regions of an
operation, regions, blocks and operations in stored order, then the operation itself. -/
def postOrder : Operation → List Operation
  | .mk n l a rs => postOrderRegions rs ++ [.mk n l a rs]
/-- Post-order listing of the operations of a sequence of regions. -/
def postOrderRegions : List Region → List Operation
  | [] => []
  | (.mk bs) :: rs => postOrderBlocks bs ++ postOrderRegions rs
/-- Post-order listing of the operations of a sequence of blocks. -/
def postOrderBlocks : List Block → List Operation
  | [] => []
  | (.mk ops) :: bs => postOrderOperations ops ++ postOrderBlocks bs
/-- Post-order listing of a sequence of operations. -/
def postOrderOperations : List Operation → List Operation
  | [] => []
  | op :: ops => postOrder op ++ postOrderOperations ops
end

/-- The violation the pass looks for: an operation of the disallowed kind (a Linalg op) that
carries the marker attribute. -/
def isViolation (isLinalgOp : Operation → Bool) (op : Operation) : Bool :=
  isLinalgOp op && op.hasAttr linalg.LinalgTransforms.kLinalgTransformMarker

/-- The diagnostic the pass emits for a violating operation. -/
def violationDiagnostic (op : Operation) : Diagnostic :=
  op.emitError "expected no Linalg transform markers"

/-- No violating operation of the tree has a violating operation nested in its regions. -/
def noNestedViolation (isLinalgOp : Operation → Bool) (moduleOp : Operation) : Bool :=
  (preOrder moduleOp).all fun op =>
    !isViolation isLinalgOp op ||
      (preOrderRegions op.regions).all fun nested => !isViolation isLinalgOp nested

/-- Outcome of a walk that stops at the first violation of a listing of operations: an
interrupt with the diagnostic of that operation added, or an advance when there is none. -/
def firstViolationOutcome (isLinalgOp : Operation → Bool) (l : List Operation)
    (diags : List Diagnostic) : WalkResult × List Diagnostic :=
  match l.find? (isViolation isLinalgOp) with
  | some x => (WalkResult.interrupt, diags ++ [violationDiagnostic x])
  | none => (WalkResult.advance, diags)

/-! ### Example trees -/

/-- Linalg interface of the examples: `linalg.generic` and `linalg.fill` implement it. -/
def exampleIsLinalgOp (op : Operation) : Bool :=
  op.name == "linalg.generic" || op.name == "linalg.fill"

/-- A marked `linalg.fill` without regions. -/
def exampleMarkedFill : Operation :=
  .mk "linalg.fill" 12 [("__internal_linalg_transform__", "workgroup")] []

/-- A marked `linalg.generic` whose region holds the marked `linalg.fill`. -/
def exampleMarkedGeneric : Operation :=
  .mk "linalg.generic" 11 [("__internal_linalg_transform__", "workgroup")]
    [.mk [.mk [exampleMarkedFill]]]

/-- A module whose function holds the marked `linalg.generic`, in which the marked
`linalg.fill` is nested. -/
def exampleNestedModule : Operation :=
  .mk "builtin.module" 1 []
    [.mk [.mk [.mk "func.func" 2 [("sym_name", "f")]
      [.mk [.mk [exampleMarkedGeneric, .mk "func.return" 13 [] []]]]]]]

/-- A second marked `linalg.fill`, at another location. -/
def exampleSecondMarkedFill : Operation :=
  .mk "linalg.fill" 15 [("__internal_linalg_transform__", "vectorize")] []

/-- A module whose function holds an unmarked `linalg.generic` followed by two marked
`linalg.fill` operations at distinct locations, none nested in another, and a marked
operation that is no Linalg operation. -/
def exampleSiblingModule : Operation :=
  .mk "builtin.module" 1 []
    [.mk [.mk [.mk "func.func" 2 [("sym_name", "f")]
      [.mk [.mk [.mk "linalg.generic" 10 [] [.mk [.mk [.mk "linalg.yield" 14 [] []]]],
        exampleMarkedFill,
        exampleSecondMarkedFill,
        .mk "func.return" 13 [("__internal_linalg_transform__", "x")] []]]]]]]

/-- A callback that, unlike the one of the pass, removes the marker from the operations it is
called on. -/
def exampleRemoveMarkerCallback : WalkCallback :=
  fun op diags =>
    (WalkResult.advance, op.removeAttr linalg.LinalgTransforms.kLinalgTransformMarker, diags)

/-! ## Pipeline options (`Pipelines/Options.h`) -/

/-- Preprocessor configuration the compiler is built with: which optional input dialects are
compiled in, and whether `NDEBUG` is defined (a release build, where `assert` is compiled
out). -/
structure BuildConfig where
  IREE_HAVE_MHLO_INPUT : Bool
  IREE_HAVE_TORCH_INPUT : Bool
  IREE_HAVE_TOSA_INPUT : Bool
  NDEBUG : Bool
  deriving DecidableEq, Repr

/-- Modelled from the spec: `BindingOptions` is declared in `Pipelines/Options.h`, which is not
among the sources; Binding with the two independent flags read by the builder. -/
structure BindingOptions where
  native : Bool
  tflite : Bool
  deriving DecidableEq, Repr

/-- Modelled from the spec: `InputDialectOptions::Type` is declared in `Pipelines/Options.h`,
which is not among the sources; the variants are the ones the builder switches on. A variant
exists in a build only when its support is compiled in (converters exist only when the
optional support modules were compiled in), which is why the switch of the builder, which
has no default label, guards each case by the same preprocessor symbol. -/
inductive InputDialectOptions.InputType (cfg : BuildConfig) where
  | none
  | mhlo (have_mhlo : cfg.IREE_HAVE_MHLO_INPUT = true)
  | xla (have_mhlo : cfg.IREE_HAVE_MHLO_INPUT = true)
  | tm_tensor (have_torch : cfg.IREE_HAVE_TORCH_INPUT = true)
  | tosa (have_tosa : cfg.IREE_HAVE_TOSA_INPUT = true)
  deriving DecidableEq

/-- Modelled from the spec: `InputDialectOptions` of `Pipelines/Options.h`, the selected input
dialect. -/
structure InputDialectOptions (cfg : BuildConfig) where
  type : InputDialectOptions.InputType cfg
  deriving DecidableEq

/-- Modelled from the spec: `HighLevelOptimizationOptions` of `Pipelines/Options.h`, with the
four flags read by the builder. -/
structure HighLevelOptimizationOptions where
  constExprHoisting : Bool
  numericPrecisionReduction : Bool
  stripAssertions : Bool
  constEval : Bool
  deriving DecidableEq, Repr

/-- Modelled from the spec: `SchedulingOptions::ExecutionModel` of `Pipelines/Options.h`, with
the five enumerators the builder names; `unnamed` stands for a value of the enumeration type
that is none of them, which the `default` labels of the builder handle. -/
inductive SchedulingOptions.ExecutionModel where
  | HostOnly
  | AsyncInternal
  | AsyncExternal
  | InlineStatic
  | InlineDynamic
  | unnamed (raw : Nat)
  deriving DecidableEq, Repr

/-- Modelled from the spec: `SchedulingOptions::DumpOutputFormat` of `Pipelines/Options.h`. -/
inductive SchedulingOptions.DumpOutputFormat where
  | None
  | Pretty
  | Verbose
  | CSV
  | JSON
  deriving DecidableEq, Repr

/-- Modelled from the spec: `SchedulingOptions` of `Pipelines/Options.h`, with the execution
model and the two statistics settings read by the builder. -/
structure SchedulingOptions where
  executionModel : SchedulingOptions.ExecutionModel
  dumpStatisticsFormat : SchedulingOptions.DumpOutputFormat
  dumpStatisticsFile : String
  deriving DecidableEq, Repr

/-- Modelled from the spec: `IREE::HAL::TargetOptions`, the executable target options, which
the builder only forwards. -/
structure IREE.HAL.TargetOptions where
  targets : List String
  deriving DecidableEq, Repr

/-- Modelled from the spec: `IREE::VM::TargetOptions`, the bytecode target options, which the
builder only forwards. -/
structure IREE.VM.TargetOptions where
  indexBits : Nat
  f32Extension : Bool
  f64Extension : Bool
  deriving DecidableEq, Repr

/-- A pipeline-building callback `std::function<void(OpPassManager &)>`, which the builder
only stores and forwards: it is identified by a handle. -/
structure PassPipelineCallback where
  handle : Nat
  deriving DecidableEq, Repr

/-- Modelled from the spec: `IREEVMPipelineHooks` of `Pipelines/Pipelines.h`, with the optional
const-eval hook; `none` is the empty `std::function`. -/
structure IREEVMPipelineHooks where
  buildConstEvalPassPipelineCallback : Option PassPipelineCallback
  deriving DecidableEq, Repr

/-- Modelled from the spec: `IREE::Flow::TransformOptions`, with the three members the builder
sets. -/
structure IREE.Flow.TransformOptions where
  constExprHoisting : Bool
  numericPrecisionReduction : Bool
  buildConstEvalPassPipeline : Option PassPipelineCallback
  deriving DecidableEq, Repr

/-- Modelled from the spec: `IREE::Stream::DumpOutputFormat`, the enumeration the scheduling
format is cast to. -/
inductive IREE.Stream.DumpOutputFormat where
  | None
  | Pretty
  | Verbose
  | CSV
  | JSON
  deriving DecidableEq, Repr

/-- Modelled from the spec: `IREE::Stream::TransformOptions`, with the two members the builder
sets. -/
structure IREE.Stream.TransformOptions where
  dumpStatisticsFormat : IREE.Stream.DumpOutputFormat
  dumpStatisticsFile : String
  deriving DecidableEq, Repr

/-- The cast `(IREE::Stream::DumpOutputFormat)schedulingOptions.dumpStatisticsFormat`: the
enumerator of the same value. -/
def IREE.Stream.DumpOutputFormat.cast :
    SchedulingOptions.DumpOutputFormat → IREE.Stream.DumpOutputFormat
  | .None => .None
  | .Pretty => .Pretty
  | .Verbose => .Verbose
  | .CSV => .CSV
  | .JSON => .JSON

/-! ## Stages and the pass manager -/

/-- Modelled from the spec: a pipeline stage is a named unit, either an atomic transformation
or a nested sub-pipeline. There is one stage for each pass and each sub-pipeline builder the
orchestrator calls, with the options it is called with. -/
inductive Stage where
  | MHLOInputConversionPassPipeline
  | XLACleanupPassPipeline
  | ConvertTMTensorToLinalgExtPass (nestedOn : String)
  | TOSAInputConversionPassPipeline
  | CommonInputConversionPassPipeline
  | ABITransformPassPipeline
  | TFLiteTransformPassPipeline
  | StripDebugOpsPass
  | FlowTransformPassPipeline (transformOptions : IREE.Flow.TransformOptions)
  | StreamTransformPassPipeline (transformOptions : IREE.Stream.TransformOptions)
  | HALTransformPassPipeline (targetOptions : IREE.HAL.TargetOptions)
  | HALInlineStaticTransformPassPipeline (targetOptions : IREE.HAL.TargetOptions)
  | HALInlineDynamicTransformPassPipeline (targetOptions : IREE.HAL.TargetOptions)
  | VMTransformPassPipeline (targetOptions : IREE.VM.TargetOptions)
  | DropCompilerHintsPass
  deriving DecidableEq, Repr

/-- The pass manager: the ordered list of the stages added so far. -/
abbrev OpPassManager := List Stage

/-- `OpPassManager::addPass`: the stage is added at the end. -/
def OpPassManager.addPass (passManager : OpPassManager) (pass : Stage) : OpPassManager :=
  passManager ++ [pass]

/-- `OpPassManager::addNestedPass<func::FuncOp>`: the pass, nested on functions, is added at
the end. -/
def OpPassManager.addNestedPass_FuncOp (passManager : OpPassManager)
    (pass : String → Stage) : OpPassManager :=
  passManager ++ [pass "func.func"]

/-- Modelled from the spec: `MHLO::buildMHLOInputConversionPassPipeline`, defined outside the
sources, adds the MHLO conversion stage. -/
def MHLO.buildMHLOInputConversionPassPipeline (passManager : OpPassManager) : OpPassManager :=
  passManager ++ [Stage.MHLOInputConversionPassPipeline]

/-- Modelled from the spec: `MHLO::buildXLACleanupPassPipeline`, defined outside the sources,
adds the XLA cleanup stage. -/
def MHLO.buildXLACleanupPassPipeline (passManager : OpPassManager) : OpPassManager :=
  passManager ++ [Stage.XLACleanupPassPipeline]

/-- Modelled from the spec: `buildTOSAInputConversionPassPipeline`, defined outside the
sources, adds the TOSA conversion stage. -/
def buildTOSAInputConversionPassPipeline (passManager : OpPassManager) : OpPassManager :=
  passManager ++ [Stage.TOSAInputConversionPassPipeline]

/-- Modelled from the spec: `buildCommonInputConversionPassPipeline`, defined outside the
sources, adds the dialect-agnostic common input-normalization stage. -/
def buildCommonInputConversionPassPipeline (passManager : OpPassManager) : OpPassManager :=
  passManager ++ [Stage.CommonInputConversionPassPipeline]

/-- Modelled from the spec: `IREE::ABI::buildTransformPassPipeline`, defined outside the
sources, adds the native-binding stage. -/
def IREE.ABI.buildTransformPassPipeline (passManager : OpPassManager) : OpPassManager :=
  passManager ++ [Stage.ABITransformPassPipeline]

/-- Modelled from the spec: `IREE::TFLite::buildTransformPassPipeline`, defined outside the
sources, adds the alternate-binding stage. -/
def IREE.TFLite.buildTransformPassPipeline (passManager : OpPassManager) : OpPassManager :=
  passManager ++ [Stage.TFLiteTransformPassPipeline]

/-- Modelled from the spec: `IREE::Flow::buildFlowTransformPassPipeline`, defined outside the
sources, adds the high-level-optimization stage with its options. -/
def IREE.Flow.buildFlowTransformPassPipeline (passManager : OpPassManager)
    (transformOptions : IREE.Flow.TransformOptions) : OpPassManager :=
  passManager ++ [Stage.FlowTransformPassPipeline transformOptions]

/-- Modelled from the spec: `IREE::Stream::buildStreamTransformPassPipeline`, defined outside
the sources, adds the scheduling-lowering stage with its options. -/
def IREE.Stream.buildStreamTransformPassPipeline (passManager : OpPassManager)
    (transformOptions : IREE.Stream.TransformOptions) : OpPassManager :=
  passManager ++ [Stage.StreamTransformPassPipeline transformOptions]

/-- Modelled from the spec: `IREE::HAL::buildHALTransformPassPipeline`, defined outside the
sources, adds the hardware-abstraction stage shared by the asynchronous models. -/
def IREE.HAL.buildHALTransformPassPipeline (passManager : OpPassManager)
    (targetOptions : IREE.HAL.TargetOptions) : OpPassManager :=
  passManager ++ [Stage.HALTransformPassPipeline targetOptions]

/-- Modelled from the spec: `IREE::HAL::Inline::buildHALInlineStaticTransformPassPipeline`,
defined outside the sources, adds the inline-static hardware-abstraction stage. -/
def IREE.HAL.Inline.buildHALInlineStaticTransformPassPipeline (passManager : OpPassManager)
    (targetOptions : IREE.HAL.TargetOptions) : OpPassManager :=
  passManager ++ [Stage.HALInlineStaticTransformPassPipeline targetOptions]

/-- Modelled from the spec: `IREE::HAL::Loader::buildHALInlineDynamicTransformPassPipeline`,
defined outside the sources, adds the inline-dynamic hardware-abstraction stage. -/
def IREE.HAL.Loader.buildHALInlineDynamicTransformPassPipeline (passManager : OpPassManager)
    (targetOptions : IREE.HAL.TargetOptions) : OpPassManager :=
  passManager ++ [Stage.HALInlineDynamicTransformPassPipeline targetOptions]

/-- Modelled from the spec: `IREE::VM::buildVMTransformPassPipeline`, defined outside the
sources, adds the bytecode-lowering stage with its options. -/
def IREE.VM.buildVMTransformPassPipeline (passManager : OpPassManager)
    (targetOptions : IREE.VM.TargetOptions) : OpPassManager :=
  passManager ++ [Stage.VMTransformPassPipeline targetOptions]

/-! ## The pipeline builder (`Pipelines/Pipelines.cpp`) -/

/-- The fault of a failed `assert`: the process is aborted with the message. -/
structure AssertionFailure where
  message : String
  deriving DecidableEq, Repr

/-- `assert(condition && message)`: compiled out when `NDEBUG` is defined, and aborting when
the condition is false otherwise. -/
def cAssert (cfg : BuildConfig) (condition : Bool) (message : String) :
    Except AssertionFailure Unit :=
  if cfg.NDEBUG then Except.ok ()
  else if condition then Except.ok ()
  else Except.error { message := message }

/-- `buildIREEVMTransformPassPipeline`: the stages are added to the pass manager given, in the
order of the statements of the function; the result is the pass manager afterwards, or the
fault of the assertion on the const-eval hook, which aborts the build. In the two switches on
the execution model the `default` label takes the values that are none of the enumerators
named. -/
def buildIREEVMTransformPassPipeline (cfg : BuildConfig)
    (bindingOptions : BindingOptions) (inputOptions : InputDialectOptions cfg)
    (highLevelOptimizationOptions : HighLevelOptimizationOptions)
    (schedulingOptions : SchedulingOptions)
    (executableOptions : IREE.HAL.TargetOptions)
    (targetOptions : IREE.VM.TargetOptions) (hooks : IREEVMPipelineHooks)
    (passManager : OpPassManager) : Except AssertionFailure OpPassManager :=
  let passManager :=
    match inputOptions.type with
    | .none => passManager
    | .mhlo _ => MHLO.buildMHLOInputConversionPassPipeline passManager
    | .xla _ =>
      MHLO.buildMHLOInputConversionPassPipeline (MHLO.buildXLACleanupPassPipeline passManager)
    | .tm_tensor _ =>
      passManager.addNestedPass_FuncOp Stage.ConvertTMTensorToLinalgExtPass
    | .tosa _ => buildTOSAInputConversionPassPipeline passManager
  let passManager := buildCommonInputConversionPassPipeline passManager
  let passManager :=
    if bindingOptions.native then IREE.ABI.buildTransformPassPipeline passManager
    else passManager
  let passManager :=
    if bindingOptions.tflite then IREE.TFLite.buildTransformPassPipeline passManager
    else passManager
  let flowOptions : IREE.Flow.TransformOptions :=
    { constExprHoisting := highLevelOptimizationOptions.constExprHoisting
      numericPrecisionReduction := highLevelOptimizationOptions.numericPrecisionReduction
      buildConstEvalPassPipeline := Option.none }
  let asserted :=
    if highLevelOptimizationOptions.constEval then
      cAssert cfg hooks.buildConstEvalPassPipelineCallback.isSome
        "if const-eval is enabled the buildConstEvalPassPipelineCallback hook must be enabled"
    else Except.ok ()
  match asserted with
  | Except.error fault => Except.error fault
  | Except.ok () =>
    let flowOptions :=
      if highLevelOptimizationOptions.constEval
          && hooks.buildConstEvalPassPipelineCallback.isSome then
        { flowOptions with
          buildConstEvalPassPipeline := hooks.buildConstEvalPassPipelineCallback }
      else flowOptions
    let passManager :=
      if highLevelOptimizationOptions.stripAssertions then
        passManager.addPass Stage.StripDebugOpsPass
      else passManager
    let streamOptions : IREE.Stream.TransformOptions :=
      { dumpStatisticsFormat :=
          IREE.Stream.DumpOutputFormat.cast schedulingOptions.dumpStatisticsFormat
        dumpStatisticsFile := schedulingOptions.dumpStatisticsFile }
    let passManager :=
      match schedulingOptions.executionModel with
      | .HostOnly => passManager
      | _ =>
        IREE.Stream.buildStreamTransformPassPipeline
          (IREE.Flow.buildFlowTransformPassPipeline passManager flowOptions) streamOptions
    let passManager :=
      match schedulingOptions.executionModel with
      | .HostOnly => passManager
      | .unnamed _ | .AsyncInternal | .AsyncExternal =>
        IREE.HAL.buildHALTransformPassPipeline passManager executableOptions
      | .InlineStatic =>
        IREE.HAL.Inline.buildHALInlineStaticTransformPassPipeline passManager executableOptions
      | .InlineDynamic =>
        IREE.HAL.Loader.buildHALInlineDynamicTransformPassPipeline passManager
          executableOptions
    let passManager := IREE.VM.buildVMTransformPassPipeline passManager targetOptions
    Except.ok (passManager.addPass Stage.DropCompilerHintsPass)

/-- `buildDefaultIREEVMTransformPassPipeline`: the builder called with the options read from
the flags, given here as arguments, and with the default hooks, which are empty. -/
def buildDefaultIREEVMTransformPassPipeline (cfg : BuildConfig)
    (bindingFromFlags : BindingOptions) (inputFromFlags : InputDialectOptions cfg)
    (highLevelOptimizationFromFlags : HighLevelOptimizationOptions)
    (schedulingFromFlags : SchedulingOptions)
    (executableFromFlags : IREE.HAL.TargetOptions)
    (targetFromFlags : IREE.VM.TargetOptions)
    (passManager : OpPassManager) : Except AssertionFailure OpPassManager :=
  let defaultHooks : IREEVMPipelineHooks :=
    { buildConstEvalPassPipelineCallback := Option.none }
  buildIREEVMTransformPassPipeline cfg bindingFromFlags inputFromFlags
    highLevelOptimizationFromFlags schedulingFromFlags executableFromFlags targetFromFlags
    defaultHooks passManager

/-- An entry of the pass-pipeline registry, as made by `PassPipelineRegistration<>`: the
argument that names the pipeline, its description, and the function that builds it. -/
structure PassPipelineRegistration where
  arg : String
  description : String
  builder : OpPassManager → Except AssertionFailure OpPassManager

/-- `registerIREEVMTransformPassPipeline`: the entry registered, whose builder calls
`buildDefaultIREEVMTransformPassPipeline`; the options the flags hold are arguments. -/
def registerIREEVMTransformPassPipeline (cfg : BuildConfig)
    (bindingFromFlags : BindingOptions) (inputFromFlags : InputDialectOptions cfg)
    (highLevelOptimizationFromFlags : HighLevelOptimizationOptions)
    (schedulingFromFlags : SchedulingOptions)
    (executableFromFlags : IREE.HAL.TargetOptions)
    (targetFromFlags : IREE.VM.TargetOptions) : PassPipelineRegistration :=
  { arg := "iree-transformation-pipeline"
    description := "Runs the full IREE input to VM transformation pipeline"
    builder := fun passManager =>
      buildDefaultIREEVMTransformPassPipeline cfg bindingFromFlags inputFromFlags
        highLevelOptimizationFromFlags schedulingFromFlags executableFromFlags
        targetFromFlags passManager }

/-! ## Vocabulary of the pipeline claims -/

/-- The dialect-specific input-conversion stages. -/
def Stage.isInputConversion : Stage → Bool
  | .MHLOInputConversionPassPipeline => true
  | .XLACleanupPassPipeline => true
  | .ConvertTMTensorToLinalgExtPass _ => true
  | .TOSAInputConversionPassPipeline => true
  | _ => false

/-- The binding stages: native and alternate (TFLite). -/
def Stage.isBinding : Stage → Bool
  | .ABITransformPassPipeline => true
  | .TFLiteTransformPassPipeline => true
  | _ => false

/-- The high-level-optimization (Flow) stage, whatever its options. -/
def Stage.isFlow : Stage → Bool
  | .FlowTransformPassPipeline _ => true
  | _ => false

/-- The scheduling-lowering (Stream) stage, whatever its options. -/
def Stage.isStream : Stage → Bool
  | .StreamTransformPassPipeline _ => true
  | _ => false

/-- The three hardware-abstraction stages, whatever their options. -/
def Stage.isHardwareAbstraction : Stage → Bool
  | .HALTransformPassPipeline _ => true
  | .HALInlineStaticTransformPassPipeline _ => true
  | .HALInlineDynamicTransformPassPipeline _ => true
  | _ => false

/-- The bytecode-lowering (VM) stage, whatever its options. -/
def Stage.isVM : Stage → Bool
  | .VMTransformPassPipeline _ => true
  | _ => false

/-- The lowering stages after the high-level optimization: scheduling, hardware abstraction
and bytecode. -/
def Stage.isFurtherLowering (s : Stage) : Bool :=
  s.isStream || s.isHardwareAbstraction || s.isVM

/-- Stages the input-dialect switch adds. -/
def inputConversionStages {cfg : BuildConfig} : InputDialectOptions.InputType cfg → List Stage
  | .none => []
  | .mhlo _ => [Stage.MHLOInputConversionPassPipeline]
  | .xla _ => [Stage.XLACleanupPassPipeline, Stage.MHLOInputConversionPassPipeline]
  | .tm_tensor _ => [Stage.ConvertTMTensorToLinalgExtPass "func.func"]
  | .tosa _ => [Stage.TOSAInputConversionPassPipeline]

/-- Stages the two binding flags add. -/
def bindingStages (bindingOptions : BindingOptions) : List Stage :=
  (if bindingOptions.native then [Stage.ABITransformPassPipeline] else []) ++
    (if bindingOptions.tflite then [Stage.TFLiteTransformPassPipeline] else [])

/-- Stage the assertion-stripping flag adds. -/
def stripStages (highLevelOptimizationOptions : HighLevelOptimizationOptions) : List Stage :=
  if highLevelOptimizationOptions.stripAssertions then [Stage.StripDebugOpsPass] else []

/-- Options the high-level-optimization stage is built with. -/
def resolvedFlowOptions (highLevelOptimizationOptions : HighLevelOptimizationOptions)
    (hooks : IREEVMPipelineHooks) : IREE.Flow.TransformOptions :=
  { constExprHoisting := highLevelOptimizationOptions.constExprHoisting
    numericPrecisionReduction := highLevelOptimizationOptions.numericPrecisionReduction
    buildConstEvalPassPipeline :=
      if highLevelOptimizationOptions.constEval then hooks.buildConstEvalPassPipelineCallback
      else Option.none }

/-- Options the scheduling-lowering stage is built with. -/
def resolvedStreamOptions (schedulingOptions : SchedulingOptions) :
    IREE.Stream.TransformOptions :=
  { dumpStatisticsFormat :=
      IREE.Stream.DumpOutputFormat.cast schedulingOptions.dumpStatisticsFormat
    dumpStatisticsFile := schedulingOptions.dumpStatisticsFile }

/-- Hardware-abstraction stage of an execution model other than `HostOnly`. -/
def hardwareAbstractionStage (executableOptions : IREE.HAL.TargetOptions) :
    SchedulingOptions.ExecutionModel → Stage
  | .InlineStatic => Stage.HALInlineStaticTransformPassPipeline executableOptions
  | .InlineDynamic => Stage.HALInlineDynamicTransformPassPipeline executableOptions
  | _ => Stage.HALTransformPassPipeline executableOptions

/-- Stages the two switches on the execution model add. -/
def schedulingStages (highLevelOptimizationOptions : HighLevelOptimizationOptions)
    (schedulingOptions : SchedulingOptions) (executableOptions : IREE.HAL.TargetOptions)
    (hooks : IREEVMPipelineHooks) : List Stage :=
  match schedulingOptions.executionModel with
  | .HostOnly => []
  | model =>
    [Stage.FlowTransformPassPipeline (resolvedFlowOptions highLevelOptimizationOptions hooks),
      Stage.StreamTransformPassPipeline (resolvedStreamOptions schedulingOptions),
      hardwareAbstractionStage executableOptions model]

/-- The build aborts: assertions are compiled in, const-eval is requested and there is no
hook. -/
def assertionFails (cfg : BuildConfig)
    (highLevelOptimizationOptions : HighLevelOptimizationOptions)
    (hooks : IREEVMPipelineHooks) : Bool :=
  !cfg.NDEBUG && highLevelOptimizationOptions.constEval
    && hooks.buildConstEvalPassPipelineCallback.isNone

/-! ### Example options -/

/-- A debug build with every optional input dialect compiled in. -/
def exampleDebugBuild : BuildConfig :=
  { IREE_HAVE_MHLO_INPUT := true, IREE_HAVE_TORCH_INPUT := true, IREE_HAVE_TOSA_INPUT := true,
    NDEBUG := false }

/-- A release build with every optional input dialect compiled in. -/
def exampleReleaseBuild : BuildConfig :=
  { IREE_HAVE_MHLO_INPUT := true, IREE_HAVE_TORCH_INPUT := true, IREE_HAVE_TOSA_INPUT := true,
    NDEBUG := true }

/-- Executable target options of the examples. -/
def exampleExecutableOptions : IREE.HAL.TargetOptions := { targets := ["llvm-cpu"] }

/-- Bytecode target options of the examples. -/
def exampleTargetOptions : IREE.VM.TargetOptions :=
  { indexBits := 32, f32Extension := true, f64Extension := false }

/-- Hooks of the examples, with a const-eval hook. -/
def exampleHooks : IREEVMPipelineHooks :=
  { buildConstEvalPassPipelineCallback := some { handle := 7 } }

/-- Hooks without a const-eval hook. -/
def exampleEmptyHooks : IREEVMPipelineHooks :=
  { buildConstEvalPassPipelineCallback := Option.none }

/-- Binding options of the examples: both bindings. -/
def exampleBinding : BindingOptions := { native := true, tflite := true }

/-- Optimization options of the examples: hoisting, assertion stripping and const-eval
requested. -/
def exampleOptimization : HighLevelOptimizationOptions :=
  { constExprHoisting := true, numericPrecisionReduction := false, stripAssertions := true,
    constEval := true }

/-- Scheduling options of the examples for an execution model. -/
def exampleScheduling (model : SchedulingOptions.ExecutionModel) : SchedulingOptions :=
  { executionModel := model, dumpStatisticsFormat := SchedulingOptions.DumpOutputFormat.JSON,
    dumpStatisticsFile := "stats.json" }

/-- The high-level-optimization stage of the examples, with the const-eval hook. -/
def exampleFlowStage : Stage :=
  Stage.FlowTransformPassPipeline
    { constExprHoisting := true, numericPrecisionReduction := false,
      buildConstEvalPassPipeline := some { handle := 7 } }

/-- The high-level-optimization stage of the examples, without const-eval builder. -/
def examplePlainFlowStage : Stage :=
  Stage.FlowTransformPassPipeline
    { constExprHoisting := true, numericPrecisionReduction := false,
      buildConstEvalPassPipeline := Option.none }

/-- The scheduling-lowering stage of the examples. -/
def exampleStreamStage : Stage :=
  Stage.StreamTransformPassPipeline
    { dumpStatisticsFormat := IREE.Stream.DumpOutputFormat.JSON,
      dumpStatisticsFile := "stats.json" }

/-- Stage list of the example options with input `xla` and the host-only model. -/
def exampleHostOnlyStages : List Stage :=
  [Stage.XLACleanupPassPipeline, Stage.MHLOInputConversionPassPipeline,
    Stage.CommonInputConversionPassPipeline, Stage.ABITransformPassPipeline,
    Stage.TFLiteTransformPassPipeline, Stage.StripDebugOpsPass,
    Stage.VMTransformPassPipeline exampleTargetOptions, Stage.DropCompilerHintsPass]

/-- Stage list of the example options with input `none` and the model `AsyncInternal`. -/
def exampleAsyncStages : List Stage :=
  [Stage.CommonInputConversionPassPipeline, Stage.ABITransformPassPipeline,
    Stage.TFLiteTransformPassPipeline, Stage.StripDebugOpsPass, exampleFlowStage,
    exampleStreamStage, Stage.HALTransformPassPipeline exampleExecutableOptions,
    Stage.VMTransformPassPipeline exampleTargetOptions, Stage.DropCompilerHintsPass]

/-- Stage list of the example options with input `none`, the model `AsyncInternal` and no
hook, in a release build. -/
def examplePlainAsyncStages : List Stage :=
  [Stage.CommonInputConversionPassPipeline, Stage.ABITransformPassPipeline,
    Stage.TFLiteTransformPassPipeline, Stage.StripDebugOpsPass, examplePlainFlowStage,
    exampleStreamStage, Stage.HALTransformPassPipeline exampleExecutableOptions,
    Stage.VMTransformPassPipeline exampleTargetOptions, Stage.DropCompilerHintsPass]

/-- What follows the input-conversion stages in the example lists with an inline model. -/
def exampleInlineRest (hal : Stage) : List Stage :=
  [Stage.CommonInputConversionPassPipeline, Stage.ABITransformPassPipeline,
    Stage.TFLiteTransformPassPipeline, Stage.StripDebugOpsPass, exampleFlowStage,
    exampleStreamStage, hal,
    Stage.VMTransformPassPipeline exampleTargetOptions, Stage.DropCompilerHintsPass]

/-! ## The walker finds the first violation in post-order -/


theorem firstViolationOutcome_append (isLinalgOp : Operation → Bool) (l1 l2 : List Operation)
    (diags : List Diagnostic) :
    firstViolationOutcome isLinalgOp (l1 ++ l2) diags =
      match firstViolationOutcome isLinalgOp l1 diags with
      | (WalkResult.interrupt, d) => (WalkResult.interrupt, d)
      | (_, d) => firstViolationOutcome isLinalgOp l2 d := by
  unfold firstViolationOutcome
  rw [List.find?_append]
  cases h : l1.find? (isViolation isLinalgOp) <;> simp

theorem legality_callback_eq (isLinalgOp : Operation → Bool) (op : Operation)
    (diags : List Diagnostic) :
    detail.wrapperFn isLinalgOp VerifyLinalgTransformLegalityPass.callback op diags =
      ((firstViolationOutcome isLinalgOp [op] diags).1, op.attrs,
        (firstViolationOutcome isLinalgOp [op] diags).2) := by
  unfold detail.wrapperFn VerifyLinalgTransformLegalityPass.callback firstViolationOutcome
  unfold isViolation violationDiagnostic
  cases h1 : isLinalgOp op <;>
    cases h2 : op.hasAttr linalg.LinalgTransforms.kLinalgTransformMarker <;> simp [h1, h2]

/-- The callback of the pass, behind the wrapper of the walk, leaves the attributes of the
operation it is called on as they are: neither `hasAttr` nor `emitError` writes them. -/
theorem legality_callback_leaves_attrs (isLinalgOp : Operation → Bool) (op : Operation)
    (diags : List Diagnostic) :
    (detail.wrapperFn isLinalgOp VerifyLinalgTransformLegalityPass.callback op diags).2.1 =
      op.attrs := by
  rw [legality_callback_eq]

/-! ### The walk hands back the tree when the callback leaves the attributes -/

mutual
theorem walk_leaves_tree (callback : WalkCallback) (order : WalkOrder)
    (hcallback : ∀ op diags, (callback op diags).2.1 = op.attrs) :
    ∀ (op : Operation) (diags : List Diagnostic),
      (detail.walk callback order op diags).2.1 = op
  | .mk n l a rs, diags => by
    cases order with
    | PreOrder =>
      rw [detail.walk]
      have hc := hcallback (.mk n l a rs) diags
      cases hcb : callback (.mk n l a rs) diags with
      | mk r rest =>
        obtain ⟨a1, d1⟩ := rest
        rw [hcb] at hc
        simp only [Operation.attrs] at hc
        subst hc
        have ih := walkRegions_leaves_tree callback WalkOrder.PreOrder hcallback rs d1
        cases hw : detail.walkRegions callback WalkOrder.PreOrder rs d1 with
        | mk r2 rest2 =>
          obtain ⟨rs2, d2⟩ := rest2
          rw [hw] at ih
          simp only at ih
          subst ih
          cases r <;> cases r2 <;> simp [hw]
    | PostOrder =>
      rw [detail.walk]
      have ih := walkRegions_leaves_tree callback WalkOrder.PostOrder hcallback rs diags
      cases hw : detail.walkRegions callback WalkOrder.PostOrder rs diags with
      | mk r2 rest2 =>
        obtain ⟨rs2, d2⟩ := rest2
        rw [hw] at ih
        simp only at ih
        subst ih
        have hc := hcallback (.mk n l a rs2) d2
        cases hcb : callback (.mk n l a rs2) d2 with
        | mk r rest =>
          obtain ⟨a1, d1⟩ := rest
          rw [hcb] at hc
          simp only [Operation.attrs] at hc
          subst hc
          cases r2 <;> simp [hcb]
theorem walkRegions_leaves_tree (callback : WalkCallback) (order : WalkOrder)
    (hcallback : ∀ op diags, (callback op diags).2.1 = op.attrs) :
    ∀ (rs : List Region) (diags : List Diagnostic),
      (detail.walkRegions callback order rs diags).2.1 = rs
  | [], diags => by simp [detail.walkRegions]
  | (.mk bs) :: rs, diags => by
    rw [detail.walkRegions]
    have ih := walkBlocks_leaves_tree callback order hcallback bs diags
    cases hw : detail.walkBlocks callback order bs diags with
    | mk r rest =>
      obtain ⟨bs1, d1⟩ := rest
      rw [hw] at ih
      simp only at ih
      subst ih
      have ih2 := walkRegions_leaves_tree callback order hcallback rs d1
      cases r <;> simp [ih2]
theorem walkBlocks_leaves_tree (callback : WalkCallback) (order : WalkOrder)
    (hcallback : ∀ op diags, (callback op diags).2.1 = op.attrs) :
    ∀ (bs : List Block) (diags : List Diagnostic),
      (detail.walkBlocks callback order bs diags).2.1 = bs
  | [], diags => by simp [detail.walkBlocks]
  | (.mk ops) :: bs, diags => by
    rw [detail.walkBlocks]
    have ih := walkOperations_leaves_tree callback order hcallback ops diags
    cases hw : detail.walkOperations callback order ops diags with
    | mk r rest =>
      obtain ⟨ops1, d1⟩ := rest
      rw [hw] at ih
      simp only at ih
      subst ih
      have ih2 := walkBlocks_leaves_tree callback order hcallback bs d1
      cases r <;> simp [ih2]
theorem walkOperations_leaves_tree (callback : WalkCallback) (order : WalkOrder)
    (hcallback : ∀ op diags, (callback op diags).2.1 = op.attrs) :
    ∀ (ops : List Operation) (diags : List Diagnostic),
      (detail.walkOperations callback order ops diags).2.1 = ops
  | [], diags => by simp [detail.walkOperations]
  | op :: ops, diags => by
    rw [detail.walkOperations]
    have ih := walk_leaves_tree callback order hcallback op diags
    cases hw : detail.walk callback order op diags with
    | mk r rest =>
      obtain ⟨op1, d1⟩ := rest
      rw [hw] at ih
      simp only at ih
      subst ih
      have ih2 := walkOperations_leaves_tree callback order hcallback ops d1
      cases r <;> simp [ih2]
end

/-! ### The walk stops at the first violation -/

mutual
theorem walk_postOrder (isLinalgOp : Operation → Bool) :
    ∀ (op : Operation) (diags : List Diagnostic),
      detail.walk (detail.wrapperFn isLinalgOp VerifyLinalgTransformLegalityPass.callback)
        WalkOrder.PostOrder op diags =
        ((firstViolationOutcome isLinalgOp (postOrder op) diags).1, op,
          (firstViolationOutcome isLinalgOp (postOrder op) diags).2)
  | .mk n l a rs, diags => by
    rw [detail.walk, walkRegions_postOrder isLinalgOp rs diags, postOrder,
      firstViolationOutcome_append]
    cases h : firstViolationOutcome isLinalgOp (postOrderRegions rs) diags with
    | mk r d => cases r <;> simp [legality_callback_eq, Operation.attrs]
theorem walkRegions_postOrder (isLinalgOp : Operation → Bool) :
    ∀ (rs : List Region) (diags : List Diagnostic),
      detail.walkRegions (detail.wrapperFn isLinalgOp VerifyLinalgTransformLegalityPass.callback)
        WalkOrder.PostOrder rs diags =
        ((firstViolationOutcome isLinalgOp (postOrderRegions rs) diags).1, rs,
          (firstViolationOutcome isLinalgOp (postOrderRegions rs) diags).2)
  | [], diags => by simp [detail.walkRegions, postOrderRegions, firstViolationOutcome]
  | (.mk bs) :: rs, diags => by
    rw [detail.walkRegions, walkBlocks_postOrder isLinalgOp bs diags, postOrderRegions,
      firstViolationOutcome_append]
    cases h : firstViolationOutcome isLinalgOp (postOrderBlocks bs) diags with
    | mk r d => cases r <;> simp [walkRegions_postOrder isLinalgOp rs d]
theorem walkBlocks_postOrder (isLinalgOp : Operation → Bool) :
    ∀ (bs : List Block) (diags : List Diagnostic),
      detail.walkBlocks (detail.wrapperFn isLinalgOp VerifyLinalgTransformLegalityPass.callback)
        WalkOrder.PostOrder bs diags =
        ((firstViolationOutcome isLinalgOp (postOrderBlocks bs) diags).1, bs,
          (firstViolationOutcome isLinalgOp (postOrderBlocks bs) diags).2)
  | [], diags => by simp [detail.walkBlocks, postOrderBlocks, firstViolationOutcome]
  | (.mk ops) :: bs, diags => by
    rw [detail.walkBlocks, walkOperations_postOrder isLinalgOp ops diags, postOrderBlocks,
      firstViolationOutcome_append]
    cases h : firstViolationOutcome isLinalgOp (postOrderOperations ops) diags with
    | mk r d => cases r <;> simp [walkBlocks_postOrder isLinalgOp bs d]
theorem walkOperations_postOrder (isLinalgOp : Operation → Bool) :
    ∀ (ops : List Operation) (diags : List Diagnostic),
      detail.walkOperations
        (detail.wrapperFn isLinalgOp VerifyLinalgTransformLegalityPass.callback)
        WalkOrder.PostOrder ops diags =
        ((firstViolationOutcome isLinalgOp (postOrderOperations ops) diags).1, ops,
          (firstViolationOutcome isLinalgOp (postOrderOperations ops) diags).2)
  | [], diags => by simp [detail.walkOperations, postOrderOperations, firstViolationOutcome]
  | op :: ops, diags => by
    rw [detail.walkOperations, walk_postOrder isLinalgOp op diags, postOrderOperations,
      firstViolationOutcome_append]
    cases h : firstViolationOutcome isLinalgOp (postOrder op) diags with
    | mk r d => cases r <;> simp [walkOperations_postOrder isLinalgOp ops d]
end

mutual
theorem walk_preOrder (isLinalgOp : Operation → Bool) :
    ∀ (op : Operation) (diags : List Diagnostic),
      detail.walk (detail.wrapperFn isLinalgOp VerifyLinalgTransformLegalityPass.callback)
        WalkOrder.PreOrder op diags =
        ((firstViolationOutcome isLinalgOp (preOrder op) diags).1, op,
          (firstViolationOutcome isLinalgOp (preOrder op) diags).2)
  | .mk n l a rs, diags => by
    rw [detail.walk, preOrder, ← List.singleton_append, firstViolationOutcome_append,
      legality_callback_eq]
    cases hv : isViolation isLinalgOp (.mk n l a rs) with
    | true => simp [firstViolationOutcome, List.find?, hv, Operation.attrs]
    | false =>
      have hop : firstViolationOutcome isLinalgOp [Operation.mk n l a rs] diags =
          (WalkResult.advance, diags) := by
        simp [firstViolationOutcome, List.find?, hv]
      rw [hop]
      simp only
      rw [walkRegions_preOrder isLinalgOp rs diags]
      unfold firstViolationOutcome
      cases (preOrderRegions rs).find? (isViolation isLinalgOp) <;> rfl
theorem walkRegions_preOrder (isLinalgOp : Operation → Bool) :
    ∀ (rs : List Region) (diags : List Diagnostic),
      detail.walkRegions (detail.wrapperFn isLinalgOp VerifyLinalgTransformLegalityPass.callback)
        WalkOrder.PreOrder rs diags =
        ((firstViolationOutcome isLinalgOp (preOrderRegions rs) diags).1, rs,
          (firstViolationOutcome isLinalgOp (preOrderRegions rs) diags).2)
  | [], diags => by simp [detail.walkRegions, preOrderRegions, firstViolationOutcome]
  | (.mk bs) :: rs, diags => by
    rw [detail.walkRegions, walkBlocks_preOrder isLinalgOp bs diags, preOrderRegions,
      firstViolationOutcome_append]
    cases h : firstViolationOutcome isLinalgOp (preOrderBlocks bs) diags with
    | mk r d => cases r <;> simp [walkRegions_preOrder isLinalgOp rs d]
theorem walkBlocks_preOrder (isLinalgOp : Operation → Bool) :
    ∀ (bs : List Block) (diags : List Diagnostic),
      detail.walkBlocks (detail.wrapperFn isLinalgOp VerifyLinalgTransformLegalityPass.callback)
        WalkOrder.PreOrder bs diags =
        ((firstViolationOutcome isLinalgOp (preOrderBlocks bs) diags).1, bs,
          (firstViolationOutcome isLinalgOp (preOrderBlocks bs) diags).2)
  | [], diags => by simp [detail.walkBlocks, preOrderBlocks, firstViolationOutcome]
  | (.mk ops) :: bs, diags => by
    rw [detail.walkBlocks, walkOperations_preOrder isLinalgOp ops diags, preOrderBlocks,
      firstViolationOutcome_append]
    cases h : firstViolationOutcome isLinalgOp (preOrderOperations ops) diags with
    | mk r d => cases r <;> simp [walkBlocks_preOrder isLinalgOp bs d]
theorem walkOperations_preOrder (isLinalgOp : Operation → Bool) :
    ∀ (ops : List Operation) (diags : List Diagnostic),
      detail.walkOperations
        (detail.wrapperFn isLinalgOp VerifyLinalgTransformLegalityPass.callback)
        WalkOrder.PreOrder ops diags =
        ((firstViolationOutcome isLinalgOp (preOrderOperations ops) diags).1, ops,
          (firstViolationOutcome isLinalgOp (preOrderOperations ops) diags).2)
  | [], diags => by simp [detail.walkOperations, preOrderOperations, firstViolationOutcome]
  | op :: ops, diags => by
    rw [detail.walkOperations, walk_preOrder isLinalgOp op diags, preOrderOperations,
      firstViolationOutcome_append]
    cases h : firstViolationOutcome isLinalgOp (preOrder op) diags with
    | mk r d => cases r <;> simp [walkOperations_preOrder isLinalgOp ops d]
end

/-- A walk with the callback of the pass stops at the first violating operation in the order
requested: in pre-order listing for `WalkOrder::PreOrder`, in post-order listing for the
default `WalkOrder::PostOrder`, which is the one `runOnOperation` uses; both hand back the
tree as it was. -/
theorem walk_stops_at_first_violation (isLinalgOp : Operation → Bool) (moduleOp : Operation)
    (diags : List Diagnostic) :
    moduleOp.walk isLinalgOp VerifyLinalgTransformLegalityPass.callback diags
        WalkOrder.PreOrder =
      ((firstViolationOutcome isLinalgOp (preOrder moduleOp) diags).1, moduleOp,
        (firstViolationOutcome isLinalgOp (preOrder moduleOp) diags).2) ∧
    moduleOp.walk isLinalgOp VerifyLinalgTransformLegalityPass.callback diags =
      ((firstViolationOutcome isLinalgOp (postOrder moduleOp) diags).1, moduleOp,
        (firstViolationOutcome isLinalgOp (postOrder moduleOp) diags).2) :=
  ⟨walk_preOrder isLinalgOp moduleOp diags, walk_postOrder isLinalgOp moduleOp diags⟩

/-- A callback that removes attributes changes the tree the walk hands back: walked with the
callback that removes the marker, the module with the nested marked operations comes back
without its markers, and is not the module that was given. -/
theorem walk_hands_back_rewritten_tree :
    (detail.walk exampleRemoveMarkerCallback WalkOrder.PostOrder exampleNestedModule []).2.1 =
      .mk "builtin.module" 1 []
        [.mk [.mk [.mk "func.func" 2 [("sym_name", "f")]
          [.mk [.mk [.mk "linalg.generic" 11 []
            [.mk [.mk [.mk "linalg.fill" 12 [] []]]], .mk "func.return" 13 [] []]]]]]] ∧
    (detail.walk exampleRemoveMarkerCallback WalkOrder.PostOrder exampleNestedModule []).2.1 ≠
      exampleNestedModule := by
  have h : (detail.walk exampleRemoveMarkerCallback WalkOrder.PostOrder
      exampleNestedModule []).2.1 =
      .mk "builtin.module" 1 []
        [.mk [.mk [.mk "func.func" 2 [("sym_name", "f")]
          [.mk [.mk [.mk "linalg.generic" 11 []
            [.mk [.mk [.mk "linalg.fill" 12 [] []]]], .mk "func.return" 13 [] []]]]]]] := by
    rfl
  refine ⟨h, ?_⟩
  rw [h]
  simp [exampleNestedModule, exampleMarkedGeneric, exampleMarkedFill]

theorem find?_eq_head?_filter (p : Operation → Bool) (l : List Operation) :
    l.find? p = (l.filter p).head? := by
  induction l with
  | nil => rfl
  | cons x xs ih =>
    cases h : p x
    · rw [List.find?_cons_of_neg _ (by simp [h]), List.filter_cons_of_neg (by simp [h]), ih]
    · rw [List.find?_cons_of_pos _ h, List.filter_cons_of_pos h]
      rfl

mutual
theorem postOrder_perm : ∀ (op : Operation), (postOrder op).Perm (preOrder op)
  | .mk n l a rs => by
    rw [postOrder, preOrder]
    exact (List.perm_append_singleton _ _).trans ((postOrderRegions_perm rs).cons _)
theorem postOrderRegions_perm :
    ∀ (rs : List Region), (postOrderRegions rs).Perm (preOrderRegions rs)
  | [] => by simp [postOrderRegions, preOrderRegions]
  | (.mk bs) :: rs => by
    rw [postOrderRegions, preOrderRegions]
    exact (postOrderBlocks_perm bs).append (postOrderRegions_perm rs)
theorem postOrderBlocks_perm :
    ∀ (bs : List Block), (postOrderBlocks bs).Perm (preOrderBlocks bs)
  | [] => by simp [postOrderBlocks, preOrderBlocks]
  | (.mk ops) :: bs => by
    rw [postOrderBlocks, preOrderBlocks]
    exact (postOrderOperations_perm ops).append (postOrderBlocks_perm bs)
theorem postOrderOperations_perm :
    ∀ (ops : List Operation), (postOrderOperations ops).Perm (preOrderOperations ops)
  | [] => by simp [postOrderOperations, preOrderOperations]
  | op :: ops => by
    rw [postOrderOperations, preOrderOperations]
    exact (postOrder_perm op).append (postOrderOperations_perm ops)
end

mutual
theorem filter_postOrder_eq (p : Operation → Bool) :
    ∀ (op : Operation),
      (∀ x ∈ preOrder op, p x = true → ∀ y ∈ preOrderRegions x.regions, p y = false) →
      (postOrder op).filter p = (preOrder op).filter p
  | .mk n l a rs, h => by
    rw [postOrder, preOrder, List.filter_append, List.filter_cons]
    cases hp : p (.mk n l a rs) with
    | true =>
      have h0 : ∀ y ∈ preOrderRegions rs, p y = false :=
        h (.mk n l a rs) (by simp [preOrder]) hp
      have h1 : (preOrderRegions rs).filter p = [] := by
        rw [List.filter_eq_nil_iff]
        intro y hy
        simp [h0 y hy]
      have h2 : (postOrderRegions rs).filter p = [] := by
        rw [List.filter_eq_nil_iff]
        intro y hy
        simp [h0 y ((postOrderRegions_perm rs).mem_iff.mp hy)]
      simp [h1, h2, List.filter, hp]
    | false =>
      have ih := filter_postOrderRegions_eq p rs
        (fun x hx => h x (by simp [preOrder, hx]))
      simp [ih, List.filter, hp]
theorem filter_postOrderRegions_eq (p : Operation → Bool) :
    ∀ (rs : List Region),
      (∀ x ∈ preOrderRegions rs, p x = true → ∀ y ∈ preOrderRegions x.regions, p y = false) →
      (postOrderRegions rs).filter p = (preOrderRegions rs).filter p
  | [], _ => by simp [postOrderRegions, preOrderRegions]
  | (.mk bs) :: rs, h => by
    rw [postOrderRegions, preOrderRegions, List.filter_append, List.filter_append,
      filter_postOrderBlocks_eq p bs (fun x hx => h x (by simp [preOrderRegions, hx])),
      filter_postOrderRegions_eq p rs (fun x hx => h x (by simp [preOrderRegions, hx]))]
theorem filter_postOrderBlocks_eq (p : Operation → Bool) :
    ∀ (bs : List Block),
      (∀ x ∈ preOrderBlocks bs, p x = true → ∀ y ∈ preOrderRegions x.regions, p y = false) →
      (postOrderBlocks bs).filter p = (preOrderBlocks bs).filter p
  | [], _ => by simp [postOrderBlocks, preOrderBlocks]
  | (.mk ops) :: bs, h => by
    rw [postOrderBlocks, preOrderBlocks, List.filter_append, List.filter_append,
      filter_postOrderOperations_eq p ops (fun x hx => h x (by simp [preOrderBlocks, hx])),
      filter_postOrderBlocks_eq p bs (fun x hx => h x (by simp [preOrderBlocks, hx]))]
theorem filter_postOrderOperations_eq (p : Operation → Bool) :
    ∀ (ops : List Operation),
      (∀ x ∈ preOrderOperations ops, p x = true →
        ∀ y ∈ preOrderRegions x.regions, p y = false) →
      (postOrderOperations ops).filter p = (preOrderOperations ops).filter p
  | [], _ => by simp [postOrderOperations, preOrderOperations]
  | op :: ops, h => by
    rw [postOrderOperations, preOrderOperations, List.filter_append, List.filter_append,
      filter_postOrder_eq p op (fun x hx => h x (by simp [preOrderOperations, hx])),
      filter_postOrderOperations_eq p ops
        (fun x hx => h x (by simp [preOrderOperations, hx]))]
end

theorem runOnOperation_eq (isLinalgOp : Operation → Bool) (moduleOp : Operation) :
    VerifyLinalgTransformLegalityPass.runOnOperation isLinalgOp moduleOp =
      match (postOrder moduleOp).find? (isViolation isLinalgOp) with
      | some x =>
        { moduleOp := moduleOp, diagnostics := [violationDiagnostic x], failed := true }
      | none => { moduleOp := moduleOp, diagnostics := [], failed := false } := by
  unfold VerifyLinalgTransformLegalityPass.runOnOperation Operation.walk
  rw [walk_postOrder]
  unfold firstViolationOutcome
  cases h : (postOrder moduleOp).find? (isViolation isLinalgOp) <;>
    simp [WalkResult.wasInterrupted]

/-! ## Claims on the legality gate -/

/-- C1 (amended): the pass walks the tree in post-order, the operations nested in the regions
of an operation before the operation itself and siblings in stored order, and stops at the
first hit. For every tree with one or more violating operations (Linalg operations carrying
the marker), `p1` being the first of them in pre-order, the pass fails with exactly one
diagnostic, which references the first violating operation `q` in post-order; `q` is `p1`
when no violating operation is nested in another one, and when `p1` is the only violating
operation. -/
theorem C1_reports_first_violation_in_postOrder (isLinalgOp : Operation → Bool)
    (moduleOp p1 : Operation) (rest : List Operation)
    (h : (preOrder moduleOp).filter (isViolation isLinalgOp) = p1 :: rest) :
    ∃ q, (postOrder moduleOp).find? (isViolation isLinalgOp) = some q ∧
      (VerifyLinalgTransformLegalityPass.runOnOperation isLinalgOp moduleOp).failed = true ∧
      (VerifyLinalgTransformLegalityPass.runOnOperation isLinalgOp moduleOp).diagnostics =
        [q.emitError "expected no Linalg transform markers"] ∧
      (noNestedViolation isLinalgOp moduleOp = true → q = p1) ∧
      (rest = [] → q = p1) := by
  have hperm : ((postOrder moduleOp).filter (isViolation isLinalgOp)).Perm (p1 :: rest) :=
    h ▸ (postOrder_perm moduleOp).filter _
  cases hpost : (postOrder moduleOp).filter (isViolation isLinalgOp) with
  | nil =>
    rw [hpost] at hperm
    exact absurd hperm.symm (List.cons_ne_nil _ _ ∘ List.Perm.eq_nil)
  | cons q t =>
    have hfind : (postOrder moduleOp).find? (isViolation isLinalgOp) = some q := by
      rw [find?_eq_head?_filter, hpost]
      rfl
    refine ⟨q, hfind, ?_, ?_, ?_, ?_⟩
    · rw [runOnOperation_eq, hfind]
    · rw [runOnOperation_eq, hfind]
      rfl
    · intro hn
      have hn2 : ∀ x ∈ preOrder moduleOp, isViolation isLinalgOp x = true →
          ∀ y ∈ preOrderRegions x.regions, isViolation isLinalgOp y = false := by
        intro x hx hvx y hy
        have h1 := List.all_eq_true.mp hn x hx
        rw [hvx] at h1
        simp only [Bool.not_true, Bool.false_or, List.all_eq_true, Bool.not_eq_true'] at h1
        exact h1 y hy
      have heq := filter_postOrder_eq (isViolation isLinalgOp) moduleOp hn2
      rw [hpost, h] at heq
      exact (List.cons.inj heq).1
    · intro hr
      rw [hpost, hr] at hperm
      have := List.perm_singleton.mp hperm
      exact (List.cons.inj this).1

/-- Witness of C1 (amended): the module with two marked sibling `linalg.fill` operations. -/
theorem C1_reports_first_violation_in_postOrder_witness :
    (preOrder exampleSiblingModule).filter (isViolation exampleIsLinalgOp) =
        exampleMarkedFill :: [exampleSecondMarkedFill] ∧
    ∃ q, (postOrder exampleSiblingModule).find? (isViolation exampleIsLinalgOp) = some q ∧
      (VerifyLinalgTransformLegalityPass.runOnOperation exampleIsLinalgOp
        exampleSiblingModule).failed = true ∧
      (VerifyLinalgTransformLegalityPass.runOnOperation exampleIsLinalgOp
        exampleSiblingModule).diagnostics =
        [q.emitError "expected no Linalg transform markers"] ∧
      (noNestedViolation exampleIsLinalgOp exampleSiblingModule = true →
        q = exampleMarkedFill) ∧
      ([exampleSecondMarkedFill] = [] → q = exampleMarkedFill) :=
  ⟨by rfl, C1_reports_first_violation_in_postOrder exampleIsLinalgOp exampleSiblingModule
    exampleMarkedFill _ (by rfl)⟩

/-- C1 as stated fails: in the module where the marked `linalg.fill` is nested in a region of
the marked `linalg.generic`, the violating operations in pre-order are the `linalg.generic`
(P1) and then the `linalg.fill` (P2); the pass fails with one diagnostic, which references
the nested `linalg.fill` and not the `linalg.generic`. -/
theorem C1_counterexample_nested_violation :
    (preOrder exampleNestedModule).filter (isViolation exampleIsLinalgOp) =
        [exampleMarkedGeneric, exampleMarkedFill] ∧
    (VerifyLinalgTransformLegalityPass.runOnOperation exampleIsLinalgOp
        exampleNestedModule).failed = true ∧
    (VerifyLinalgTransformLegalityPass.runOnOperation exampleIsLinalgOp
        exampleNestedModule).diagnostics =
      [exampleMarkedFill.emitError "expected no Linalg transform markers"] ∧
    (VerifyLinalgTransformLegalityPass.runOnOperation exampleIsLinalgOp
        exampleNestedModule).diagnostics ≠
      [exampleMarkedGeneric.emitError "expected no Linalg transform markers"] := by
  refine ⟨by rfl, by rfl, by rfl, ?_⟩
  have h : (VerifyLinalgTransformLegalityPass.runOnOperation exampleIsLinalgOp
        exampleNestedModule).diagnostics =
      [exampleMarkedFill.emitError "expected no Linalg transform markers"] := by rfl
  rw [h]
  simp [Operation.emitError, exampleMarkedFill, exampleMarkedGeneric, Operation.loc]

/-- C2: the pass succeeds if and only if no operation reachable from the root is both a
Linalg operation and carries the marker attribute; a Linalg operation without the marker and
an operation of another kind with the marker do not make it fail, and one violating
operation anywhere in the tree does. -/
theorem C2_succeeds_iff_no_violation (isLinalgOp : Operation → Bool)
    (moduleOp : Operation) :
    (VerifyLinalgTransformLegalityPass.runOnOperation isLinalgOp moduleOp).failed = false ↔
      ∀ op ∈ preOrder moduleOp,
        ¬ (isLinalgOp op = true ∧
          op.hasAttr linalg.LinalgTransforms.kLinalgTransformMarker = true) := by
  rw [runOnOperation_eq]
  cases hfind : (postOrder moduleOp).find? (isViolation isLinalgOp) with
  | none =>
    simp only [true_iff]
    intro op hop hv
    have := List.find?_eq_none.mp hfind op ((postOrder_perm moduleOp).mem_iff.mpr hop)
    simp [isViolation, hv.1, hv.2] at this
  | some q =>
    simp only [false_iff, Bool.true_eq_false]
    intro hall
    have hq := List.find?_some hfind
    have hmem := (postOrder_perm moduleOp).mem_iff.mp (List.mem_of_find?_eq_some hfind)
    simp only [isViolation, Bool.and_eq_true] at hq
    exact hall q hmem hq

/-! ## Shape of the built stage list -/

/-- The builder either aborts on the assertion, or adds to the pass manager, in this order:
the input-conversion stages, the common input conversion, the binding stages, the assertion
stripping, the stages of the execution model, the bytecode lowering and the hint cleanup. -/
theorem buildIREEVMTransformPassPipeline_eq (cfg : BuildConfig)
    (bindingOptions : BindingOptions) (inputOptions : InputDialectOptions cfg)
    (highLevelOptimizationOptions : HighLevelOptimizationOptions)
    (schedulingOptions : SchedulingOptions)
    (executableOptions : IREE.HAL.TargetOptions)
    (targetOptions : IREE.VM.TargetOptions) (hooks : IREEVMPipelineHooks)
    (passManager : OpPassManager) :
    buildIREEVMTransformPassPipeline cfg bindingOptions inputOptions
        highLevelOptimizationOptions schedulingOptions executableOptions targetOptions hooks
        passManager =
      if assertionFails cfg highLevelOptimizationOptions hooks = true then
        Except.error { message :=
          "if const-eval is enabled the buildConstEvalPassPipelineCallback hook must be enabled" }
      else
        Except.ok (passManager ++ (inputConversionStages inputOptions.type ++
          [Stage.CommonInputConversionPassPipeline] ++ bindingStages bindingOptions ++
          stripStages highLevelOptimizationOptions ++
          schedulingStages highLevelOptimizationOptions schedulingOptions executableOptions
            hooks ++
          [Stage.VMTransformPassPipeline targetOptions, Stage.DropCompilerHintsPass])) := by
  obtain ⟨native, tflite⟩ := bindingOptions
  obtain ⟨type⟩ := inputOptions
  obtain ⟨hoist, npr, strip, constEval⟩ := highLevelOptimizationOptions
  obtain ⟨model, fmt, file⟩ := schedulingOptions
  obtain ⟨cb⟩ := hooks
  unfold buildIREEVMTransformPassPipeline
  lift_lets
  intro pm1 pm2 pm3 pm4 fo0 asserted fo pm5 so pm6 pm7 pm8
  have e1 : pm1 = passManager ++ inputConversionStages type := by
    cases type <;>
      simp [pm1, inputConversionStages, MHLO.buildMHLOInputConversionPassPipeline,
        MHLO.buildXLACleanupPassPipeline, buildTOSAInputConversionPassPipeline,
        OpPassManager.addNestedPass_FuncOp]
  have e2 : pm2 = pm1 ++ [Stage.CommonInputConversionPassPipeline] := rfl
  have e4 : pm4 = pm2 ++ bindingStages ⟨native, tflite⟩ := by
    cases native <;> cases tflite <;>
      simp [pm4, pm3, bindingStages, IREE.ABI.buildTransformPassPipeline,
        IREE.TFLite.buildTransformPassPipeline]
  have e5 : pm5 = pm4 ++ stripStages ⟨hoist, npr, strip, constEval⟩ := by
    cases strip <;> simp [pm5, stripStages, OpPassManager.addPass]
  have efo : fo = resolvedFlowOptions ⟨hoist, npr, strip, constEval⟩ ⟨cb⟩ := by
    cases constEval <;> cases cb <;> rfl
  have e7 : pm7 = pm5 ++ schedulingStages ⟨hoist, npr, strip, constEval⟩ ⟨model, fmt, file⟩
      executableOptions ⟨cb⟩ := by
    cases model <;>
      simp [pm7, pm6, efo, so, schedulingStages, resolvedStreamOptions, hardwareAbstractionStage,
        IREE.Flow.buildFlowTransformPassPipeline, IREE.Stream.buildStreamTransformPassPipeline,
        IREE.HAL.buildHALTransformPassPipeline,
        IREE.HAL.Inline.buildHALInlineStaticTransformPassPipeline,
        IREE.HAL.Loader.buildHALInlineDynamicTransformPassPipeline]
  have e8 : pm8 = pm7 ++ [Stage.VMTransformPassPipeline targetOptions] := rfl
  have ea : asserted =
      if assertionFails cfg ⟨hoist, npr, strip, constEval⟩ ⟨cb⟩ = true then
        Except.error { message :=
          "if const-eval is enabled the buildConstEvalPassPipelineCallback hook must be enabled" }
      else Except.ok () := by
    obtain ⟨m1, m2, m3, ndebug⟩ := cfg
    cases constEval <;> cases cb <;> cases ndebug <;> rfl
  rw [ea]
  cases assertionFails cfg ⟨hoist, npr, strip, constEval⟩ ⟨cb⟩
  · simp [e8, e7, e5, e4, e2, e1, OpPassManager.addPass]
  · rfl

/-- A successful build returns the pass manager followed by the stages of the options. -/
theorem buildIREEVMTransformPassPipeline_ok (cfg : BuildConfig)
    (bindingOptions : BindingOptions) (inputOptions : InputDialectOptions cfg)
    (highLevelOptimizationOptions : HighLevelOptimizationOptions)
    (schedulingOptions : SchedulingOptions)
    (executableOptions : IREE.HAL.TargetOptions)
    (targetOptions : IREE.VM.TargetOptions) (hooks : IREEVMPipelineHooks)
    (passManager l : OpPassManager)
    (hbuild : buildIREEVMTransformPassPipeline cfg bindingOptions inputOptions
        highLevelOptimizationOptions schedulingOptions executableOptions targetOptions hooks
        passManager = Except.ok l) :
    l = passManager ++ (inputConversionStages inputOptions.type ++
          [Stage.CommonInputConversionPassPipeline] ++ bindingStages bindingOptions ++
          stripStages highLevelOptimizationOptions ++
          schedulingStages highLevelOptimizationOptions schedulingOptions executableOptions
            hooks ++
          [Stage.VMTransformPassPipeline targetOptions, Stage.DropCompilerHintsPass]) := by
  rw [buildIREEVMTransformPassPipeline_eq] at hbuild
  split at hbuild
  · cases hbuild
  · exact (Except.ok.inj hbuild).symm

/-- The build succeeds unless assertions are compiled in, const-eval is requested and there
is no hook. -/
theorem buildIREEVMTransformPassPipeline_succeeds (cfg : BuildConfig)
    (bindingOptions : BindingOptions) (inputOptions : InputDialectOptions cfg)
    (highLevelOptimizationOptions : HighLevelOptimizationOptions)
    (schedulingOptions : SchedulingOptions)
    (executableOptions : IREE.HAL.TargetOptions)
    (targetOptions : IREE.VM.TargetOptions) (hooks : IREEVMPipelineHooks)
    (passManager : OpPassManager) :
    (∃ l, buildIREEVMTransformPassPipeline cfg bindingOptions inputOptions
        highLevelOptimizationOptions schedulingOptions executableOptions targetOptions hooks
        passManager = Except.ok l) ↔
      ¬ (cfg.NDEBUG = false ∧ highLevelOptimizationOptions.constEval = true ∧
        hooks.buildConstEvalPassPipelineCallback = Option.none) := by
  rw [buildIREEVMTransformPassPipeline_eq]
  obtain ⟨m1, m2, m3, ndebug⟩ := cfg
  obtain ⟨hoist, npr, strip, constEval⟩ := highLevelOptimizationOptions
  obtain ⟨cb⟩ := hooks
  cases ndebug <;> cases constEval <;> cases cb <;> simp [assertionFails]

theorem mem_inputConversionStages {cfg : BuildConfig} (type : InputDialectOptions.InputType cfg)
    (s : Stage) (h : s ∈ inputConversionStages type) : s.isInputConversion = true := by
  cases type <;> simp only [inputConversionStages, List.mem_cons, List.mem_singleton,
      List.not_mem_nil, or_false] at h
  · rw [h]; rfl
  · rcases h with h | h <;> rw [h] <;> rfl
  · rw [h]; rfl
  · rw [h]; rfl

theorem mem_bindingStages (bindingOptions : BindingOptions) (s : Stage) :
    s ∈ bindingStages bindingOptions ↔
      (bindingOptions.native = true ∧ s = Stage.ABITransformPassPipeline) ∨
      (bindingOptions.tflite = true ∧ s = Stage.TFLiteTransformPassPipeline) := by
  obtain ⟨native, tflite⟩ := bindingOptions
  cases native <;> cases tflite <;> simp [bindingStages]

theorem mem_stripStages (highLevelOptimizationOptions : HighLevelOptimizationOptions)
    (s : Stage) :
    s ∈ stripStages highLevelOptimizationOptions ↔
      (highLevelOptimizationOptions.stripAssertions = true ∧ s = Stage.StripDebugOpsPass) := by
  unfold stripStages
  cases highLevelOptimizationOptions.stripAssertions <;> simp

theorem mem_schedulingStages (highLevelOptimizationOptions : HighLevelOptimizationOptions)
    (schedulingOptions : SchedulingOptions) (executableOptions : IREE.HAL.TargetOptions)
    (hooks : IREEVMPipelineHooks) (s : Stage) :
    s ∈ schedulingStages highLevelOptimizationOptions schedulingOptions executableOptions hooks ↔
      schedulingOptions.executionModel ≠ SchedulingOptions.ExecutionModel.HostOnly ∧
      (s = Stage.FlowTransformPassPipeline
          (resolvedFlowOptions highLevelOptimizationOptions hooks) ∨
        s = Stage.StreamTransformPassPipeline (resolvedStreamOptions schedulingOptions) ∨
        s = hardwareAbstractionStage executableOptions schedulingOptions.executionModel) := by
  obtain ⟨model, fmt, file⟩ := schedulingOptions
  cases model <;> simp [schedulingStages]

theorem hardwareAbstractionStage_isHardwareAbstraction
    (executableOptions : IREE.HAL.TargetOptions) (model : SchedulingOptions.ExecutionModel) :
    (hardwareAbstractionStage executableOptions model).isHardwareAbstraction = true := by
  cases model <;> rfl

theorem ne_hardwareAbstractionStage (executableOptions : IREE.HAL.TargetOptions)
    (model : SchedulingOptions.ExecutionModel) (s : Stage)
    (h : s.isHardwareAbstraction = false) :
    s ≠ hardwareAbstractionStage executableOptions model := by
  intro heq
  rw [heq, hardwareAbstractionStage_isHardwareAbstraction] at h
  cases h

theorem not_mem_inputConversionStages {cfg : BuildConfig}
    (type : InputDialectOptions.InputType cfg) (s : Stage)
    (h : s.isInputConversion = false) : s ∉ inputConversionStages type := by
  intro hmem
  rw [mem_inputConversionStages type s hmem] at h
  cases h

/-! ## Claims on the pipeline builder -/

/-- C3 (amended): with `stripAssertions` set, a successful build holds the assertion-stripping
stage exactly once, after the input-conversion, common input-normalization and binding
stages and before every further lowering stage (Stream, hardware abstraction, VM); with
`stripAssertions` unset the list holds no assertion-stripping stage. -/
theorem C3_strip_once_before_further_lowering (cfg : BuildConfig)
    (bindingOptions : BindingOptions) (inputOptions : InputDialectOptions cfg)
    (highLevelOptimizationOptions : HighLevelOptimizationOptions)
    (schedulingOptions : SchedulingOptions)
    (executableOptions : IREE.HAL.TargetOptions)
    (targetOptions : IREE.VM.TargetOptions) (hooks : IREEVMPipelineHooks)
    (l : OpPassManager)
    (hbuild : buildIREEVMTransformPassPipeline cfg bindingOptions inputOptions
        highLevelOptimizationOptions schedulingOptions executableOptions targetOptions hooks
        [] = Except.ok l) :
    (highLevelOptimizationOptions.stripAssertions = true →
      ∃ pre post, l = pre ++ Stage.StripDebugOpsPass :: post ∧
        Stage.StripDebugOpsPass ∉ pre ∧ Stage.StripDebugOpsPass ∉ post ∧
        (∀ s ∈ pre, s.isFurtherLowering = false) ∧
        (∀ s ∈ post, s.isInputConversion = false ∧ s.isBinding = false ∧
          s ≠ Stage.CommonInputConversionPassPipeline)) ∧
    (highLevelOptimizationOptions.stripAssertions = false → Stage.StripDebugOpsPass ∉ l) := by
  have hl := buildIREEVMTransformPassPipeline_ok _ _ _ _ _ _ _ _ _ _ hbuild
  subst hl
  have hpre := mem_inputConversionStages inputOptions.type
  have hhal := hardwareAbstractionStage_isHardwareAbstraction executableOptions
    schedulingOptions.executionModel
  have hnehal := ne_hardwareAbstractionStage executableOptions
    schedulingOptions.executionModel
  have hpreOK : ∀ s ∈ inputConversionStages inputOptions.type ++
      [Stage.CommonInputConversionPassPipeline] ++ bindingStages bindingOptions,
      s.isFurtherLowering = false ∧ s ≠ Stage.StripDebugOpsPass := by
    intro s hs
    simp only [List.mem_append, List.mem_cons, List.mem_singleton, List.not_mem_nil, or_false,
      mem_bindingStages] at hs
    rcases hs with (hs | rfl) | ⟨_, rfl⟩ | ⟨_, rfl⟩
    · have := hpre s hs
      cases s <;> simp [Stage.isInputConversion] at this <;>
        simp [Stage.isFurtherLowering, Stage.isStream, Stage.isHardwareAbstraction, Stage.isVM]
    all_goals exact ⟨rfl, by simp⟩
  have hpostOK : ∀ s ∈ schedulingStages highLevelOptimizationOptions schedulingOptions
        executableOptions hooks ++
      [Stage.VMTransformPassPipeline targetOptions, Stage.DropCompilerHintsPass],
      (s.isInputConversion = false ∧ s.isBinding = false ∧
          s ≠ Stage.CommonInputConversionPassPipeline) ∧ s ≠ Stage.StripDebugOpsPass := by
    intro s hs
    simp only [List.mem_append, List.mem_cons, List.mem_singleton, List.not_mem_nil, or_false,
      mem_schedulingStages] at hs
    rcases hs with ⟨_, rfl | rfl | rfl⟩ | rfl | rfl
    · exact ⟨⟨rfl, rfl, by simp⟩, by simp⟩
    · exact ⟨⟨rfl, rfl, by simp⟩, by simp⟩
    · cases schedulingOptions.executionModel <;>
        exact ⟨⟨rfl, rfl, by simp [hardwareAbstractionStage]⟩,
          by simp [hardwareAbstractionStage]⟩
    · exact ⟨⟨rfl, rfl, by simp⟩, by simp⟩
    · exact ⟨⟨rfl, rfl, by simp⟩, by simp⟩
  constructor
  · intro hstrip
    refine ⟨inputConversionStages inputOptions.type ++
        [Stage.CommonInputConversionPassPipeline] ++ bindingStages bindingOptions,
      schedulingStages highLevelOptimizationOptions schedulingOptions executableOptions
          hooks ++
        [Stage.VMTransformPassPipeline targetOptions, Stage.DropCompilerHintsPass],
      ?_, ?_, ?_, ?_, ?_⟩
    · simp [stripStages, hstrip]
    · exact fun hmem => (hpreOK _ hmem).2 rfl
    · exact fun hmem => (hpostOK _ hmem).2 rfl
    · exact fun s hs => (hpreOK s hs).1
    · exact fun s hs => (hpostOK s hs).1
  · intro hstrip hmem
    have hempty : stripStages highLevelOptimizationOptions = [] := by
      simp [stripStages, hstrip]
    rw [hempty, List.append_nil, List.nil_append, List.append_assoc] at hmem
    rcases List.mem_append.mp hmem with hmem | hmem
    · exact (hpreOK _ hmem).2 rfl
    · exact (hpostOK _ hmem).2 rfl

/-- Witness of C3 (amended): the example options with the model `AsyncInternal`. -/
theorem C3_strip_once_before_further_lowering_witness :
    buildIREEVMTransformPassPipeline exampleReleaseBuild exampleBinding ⟨.none⟩
        exampleOptimization (exampleScheduling .AsyncInternal) exampleExecutableOptions
        exampleTargetOptions exampleHooks [] = Except.ok exampleAsyncStages ∧
    ((exampleOptimization.stripAssertions = true →
      ∃ pre post, exampleAsyncStages = pre ++ Stage.StripDebugOpsPass :: post ∧
        Stage.StripDebugOpsPass ∉ pre ∧ Stage.StripDebugOpsPass ∉ post ∧
        (∀ s ∈ pre, s.isFurtherLowering = false) ∧
        (∀ s ∈ post, s.isInputConversion = false ∧ s.isBinding = false ∧
          s ≠ Stage.CommonInputConversionPassPipeline)) ∧
    (exampleOptimization.stripAssertions = false →
      Stage.StripDebugOpsPass ∉ exampleAsyncStages)) :=
  ⟨by rfl, C3_strip_once_before_further_lowering exampleReleaseBuild exampleBinding ⟨.none⟩
    exampleOptimization (exampleScheduling .AsyncInternal) exampleExecutableOptions
    exampleTargetOptions exampleHooks exampleAsyncStages (by rfl)⟩

/-- C3 as stated fails. With `stripAssertions` set and the model `AsyncInternal` the
assertion-stripping stage is added before the high-level-optimization (Flow) stage, so no
Flow stage is directly followed by it; with the model `HostOnly` the list holds the
assertion-stripping stage and no Flow stage at all. -/
theorem C3_counterexample_strip_not_after_flow :
    buildIREEVMTransformPassPipeline exampleReleaseBuild exampleBinding ⟨.none⟩
        exampleOptimization (exampleScheduling .AsyncInternal) exampleExecutableOptions
        exampleTargetOptions exampleHooks [] = Except.ok exampleAsyncStages ∧
    exampleOptimization.stripAssertions = true ∧
    (¬ ∃ pre flowOptions post, exampleAsyncStages =
      pre ++ [Stage.FlowTransformPassPipeline flowOptions, Stage.StripDebugOpsPass] ++ post) ∧
    buildIREEVMTransformPassPipeline exampleReleaseBuild exampleBinding ⟨.xla rfl⟩
        exampleOptimization (exampleScheduling .HostOnly) exampleExecutableOptions
        exampleTargetOptions exampleHooks [] = Except.ok exampleHostOnlyStages ∧
    Stage.StripDebugOpsPass ∈ exampleHostOnlyStages ∧
    (∀ flowOptions, Stage.FlowTransformPassPipeline flowOptions ∉ exampleHostOnlyStages) := by
  refine ⟨by rfl, rfl, ?_, by rfl, by simp [exampleHostOnlyStages], ?_⟩
  · rintro ⟨pre, flowOptions, post, h⟩
    rcases pre with _ | ⟨_, _ | ⟨_, _ | ⟨_, _ | ⟨_, _ | ⟨_, _ | ⟨_, _ | ⟨_, _ | ⟨_, _ | ⟨_, _ | ⟨_, pre⟩⟩⟩⟩⟩⟩⟩⟩⟩⟩ <;>
      simp [exampleAsyncStages, exampleFlowStage, exampleStreamStage] at h
  · intro flowOptions
    simp [exampleHostOnlyStages]

/-- C4: when `constEval` is requested and no const-eval hook is supplied, then for every
setting of the other options a build with assertions compiled in (strict mode) ends in the
assertion fault and yields no stage list, and a build with `NDEBUG` (permissive mode)
succeeds with the list built from the same options with `constEval` unset, in which the
high-level-optimization stage added has no const-eval builder. -/
theorem C4_constEval_without_hook (cfg : BuildConfig)
    (bindingOptions : BindingOptions) (inputOptions : InputDialectOptions cfg)
    (highLevelOptimizationOptions : HighLevelOptimizationOptions)
    (schedulingOptions : SchedulingOptions)
    (executableOptions : IREE.HAL.TargetOptions)
    (targetOptions : IREE.VM.TargetOptions) (hooks : IREEVMPipelineHooks)
    (passManager : OpPassManager)
    (hconst : highLevelOptimizationOptions.constEval = true)
    (hhook : hooks.buildConstEvalPassPipelineCallback = Option.none) :
    (cfg.NDEBUG = false →
      buildIREEVMTransformPassPipeline cfg bindingOptions inputOptions
        highLevelOptimizationOptions schedulingOptions executableOptions targetOptions hooks
        passManager =
      Except.error { message :=
        "if const-eval is enabled the buildConstEvalPassPipelineCallback hook must be enabled" })
    ∧
    (cfg.NDEBUG = true →
      ∃ l, buildIREEVMTransformPassPipeline cfg bindingOptions inputOptions
          highLevelOptimizationOptions schedulingOptions executableOptions targetOptions hooks
          passManager = Except.ok l ∧
        buildIREEVMTransformPassPipeline cfg bindingOptions inputOptions
          { highLevelOptimizationOptions with constEval := false } schedulingOptions
          executableOptions targetOptions hooks passManager = Except.ok l ∧
        ∀ flowOptions, Stage.FlowTransformPassPipeline flowOptions ∈ l →
          Stage.FlowTransformPassPipeline flowOptions ∉ passManager →
          flowOptions.buildConstEvalPassPipeline = Option.none) := by
  obtain ⟨hoist, npr, strip, constEval⟩ := highLevelOptimizationOptions
  obtain ⟨cb⟩ := hooks
  simp only at hconst hhook
  subst hconst hhook
  constructor
  · intro hnd
    rw [buildIREEVMTransformPassPipeline_eq]
    simp [assertionFails, hnd]
  · intro hnd
    refine ⟨passManager ++ (inputConversionStages inputOptions.type ++
        [Stage.CommonInputConversionPassPipeline] ++ bindingStages bindingOptions ++
        stripStages ⟨hoist, npr, strip, true⟩ ++
        schedulingStages ⟨hoist, npr, strip, true⟩ schedulingOptions executableOptions
          ⟨Option.none⟩ ++
        [Stage.VMTransformPassPipeline targetOptions, Stage.DropCompilerHintsPass]),
      ?_, ?_, ?_⟩
    · rw [buildIREEVMTransformPassPipeline_eq, if_neg (by simp [assertionFails, hnd])]
    · rw [buildIREEVMTransformPassPipeline_eq, if_neg (by simp [assertionFails, hnd])]
      rfl
    · intro flowOptions hmem hnot
      have hpre := mem_inputConversionStages inputOptions.type
      have hhal := ne_hardwareAbstractionStage executableOptions
        schedulingOptions.executionModel
      simp only [List.mem_append, List.mem_cons, List.mem_singleton,
        List.not_mem_nil, or_false, mem_bindingStages, mem_stripStages, mem_schedulingStages,
        reduceCtorEq, and_false, false_or, or_false, Stage.FlowTransformPassPipeline.injEq]
        at hmem
      rcases hmem with hmem | hmem | ⟨_, hmem | hmem⟩
      · exact absurd hmem hnot
      · exact absurd (hpre _ hmem) (by simp [Stage.isInputConversion])
      · rw [hmem]
        rfl
      · exact absurd hmem (hhal _ rfl)

/-- Witness of C4: const-eval requested without hook, in a debug and in a release build. -/
theorem C4_constEval_without_hook_witness :
    exampleOptimization.constEval = true ∧
    exampleEmptyHooks.buildConstEvalPassPipelineCallback = Option.none ∧
    buildIREEVMTransformPassPipeline exampleDebugBuild exampleBinding ⟨.none⟩
        exampleOptimization (exampleScheduling .AsyncInternal) exampleExecutableOptions
        exampleTargetOptions exampleEmptyHooks [] =
      Except.error { message :=
        "if const-eval is enabled the buildConstEvalPassPipelineCallback hook must be enabled" }
    ∧
    (∃ l, buildIREEVMTransformPassPipeline exampleReleaseBuild exampleBinding ⟨.none⟩
          exampleOptimization (exampleScheduling .AsyncInternal) exampleExecutableOptions
          exampleTargetOptions exampleEmptyHooks [] = Except.ok l ∧
        buildIREEVMTransformPassPipeline exampleReleaseBuild exampleBinding ⟨.none⟩
          { exampleOptimization with constEval := false } (exampleScheduling .AsyncInternal)
          exampleExecutableOptions exampleTargetOptions exampleEmptyHooks [] = Except.ok l ∧
        ∀ flowOptions, Stage.FlowTransformPassPipeline flowOptions ∈ l →
          Stage.FlowTransformPassPipeline flowOptions ∉ ([] : OpPassManager) →
          flowOptions.buildConstEvalPassPipeline = Option.none) ∧
    buildIREEVMTransformPassPipeline exampleReleaseBuild exampleBinding ⟨.none⟩
        exampleOptimization (exampleScheduling .AsyncInternal) exampleExecutableOptions
        exampleTargetOptions exampleEmptyHooks [] = Except.ok examplePlainAsyncStages :=
  ⟨rfl, rfl,
    (C4_constEval_without_hook exampleDebugBuild exampleBinding ⟨.none⟩ exampleOptimization
      (exampleScheduling .AsyncInternal) exampleExecutableOptions exampleTargetOptions
      exampleEmptyHooks [] rfl rfl).1 rfl,
    (C4_constEval_without_hook exampleReleaseBuild exampleBinding ⟨.none⟩ exampleOptimization
      (exampleScheduling .AsyncInternal) exampleExecutableOptions exampleTargetOptions
      exampleEmptyHooks [] rfl rfl).2 rfl,
    by rfl⟩

/-- C5: in a successful build the high-level-optimization stage is given a const-eval
pipeline builder if and only if `constEval` is set and the hook is present, and the builder
it is given is the hook supplied; with `constEval` unset it gets none, also when a hook is
supplied. The stage is in the list for every execution model other than `HostOnly`. -/
theorem C5_constEval_builder_iff (cfg : BuildConfig)
    (bindingOptions : BindingOptions) (inputOptions : InputDialectOptions cfg)
    (highLevelOptimizationOptions : HighLevelOptimizationOptions)
    (schedulingOptions : SchedulingOptions)
    (executableOptions : IREE.HAL.TargetOptions)
    (targetOptions : IREE.VM.TargetOptions) (hooks : IREEVMPipelineHooks)
    (l : OpPassManager)
    (hbuild : buildIREEVMTransformPassPipeline cfg bindingOptions inputOptions
        highLevelOptimizationOptions schedulingOptions executableOptions targetOptions hooks
        [] = Except.ok l) :
    (∀ flowOptions, Stage.FlowTransformPassPipeline flowOptions ∈ l →
      (flowOptions.buildConstEvalPassPipeline.isSome = true ↔
        (highLevelOptimizationOptions.constEval = true ∧
          hooks.buildConstEvalPassPipelineCallback.isSome = true)) ∧
      (flowOptions.buildConstEvalPassPipeline.isSome = true →
        flowOptions.buildConstEvalPassPipeline = hooks.buildConstEvalPassPipelineCallback) ∧
      (highLevelOptimizationOptions.constEval = false →
        flowOptions.buildConstEvalPassPipeline = Option.none)) ∧
    (schedulingOptions.executionModel ≠ SchedulingOptions.ExecutionModel.HostOnly →
      ∃ flowOptions, Stage.FlowTransformPassPipeline flowOptions ∈ l) := by
  have hl := buildIREEVMTransformPassPipeline_ok _ _ _ _ _ _ _ _ _ _ hbuild
  subst hl
  have hpre := mem_inputConversionStages inputOptions.type
  have hhal := ne_hardwareAbstractionStage executableOptions schedulingOptions.executionModel
  constructor
  · intro flowOptions hmem
    have hfo : flowOptions = resolvedFlowOptions highLevelOptimizationOptions hooks := by
      simp only [List.nil_append, List.mem_append, List.mem_cons, List.mem_singleton,
        List.not_mem_nil, or_false, mem_bindingStages, mem_stripStages, mem_schedulingStages,
        reduceCtorEq, and_false, false_or, or_false, Stage.FlowTransformPassPipeline.injEq]
        at hmem
      rcases hmem with hmem | ⟨_, hmem | hmem⟩
      · exact absurd (hpre _ hmem) (by simp [Stage.isInputConversion])
      · exact hmem
      · exact absurd hmem (hhal _ rfl)
    subst hfo
    obtain ⟨hoist, npr, strip, constEval⟩ := highLevelOptimizationOptions
    obtain ⟨cb⟩ := hooks
    cases constEval <;> cases cb <;> simp [resolvedFlowOptions]
  · intro hmodel
    exact ⟨resolvedFlowOptions highLevelOptimizationOptions hooks, by
      simp [mem_schedulingStages, hmodel]⟩

/-- Witness of C5: the example options with a hook and the model `AsyncInternal`. -/
theorem C5_constEval_builder_iff_witness :
    buildIREEVMTransformPassPipeline exampleDebugBuild exampleBinding ⟨.none⟩
        exampleOptimization (exampleScheduling .AsyncInternal) exampleExecutableOptions
        exampleTargetOptions exampleHooks [] = Except.ok exampleAsyncStages ∧
    ((∀ flowOptions, Stage.FlowTransformPassPipeline flowOptions ∈ exampleAsyncStages →
      (flowOptions.buildConstEvalPassPipeline.isSome = true ↔
        (exampleOptimization.constEval = true ∧
          exampleHooks.buildConstEvalPassPipelineCallback.isSome = true)) ∧
      (flowOptions.buildConstEvalPassPipeline.isSome = true →
        flowOptions.buildConstEvalPassPipeline =
          exampleHooks.buildConstEvalPassPipelineCallback) ∧
      (exampleOptimization.constEval = false →
        flowOptions.buildConstEvalPassPipeline = Option.none)) ∧
    ((exampleScheduling .AsyncInternal).executionModel ≠
        SchedulingOptions.ExecutionModel.HostOnly →
      ∃ flowOptions, Stage.FlowTransformPassPipeline flowOptions ∈ exampleAsyncStages)) :=
  ⟨by rfl, C5_constEval_builder_iff exampleDebugBuild exampleBinding ⟨.none⟩
    exampleOptimization (exampleScheduling .AsyncInternal) exampleExecutableOptions
    exampleTargetOptions exampleHooks exampleAsyncStages (by rfl)⟩

/-- C6: for every execution model other than `HostOnly`, the built stage list holds the
scheduling-lowering (Stream) stage exactly once, followed directly by exactly one
hardware-abstraction stage: HAL for `AsyncInternal`, the same HAL stage for `AsyncExternal`,
HAL-inline-static for `InlineStatic`, HAL-inline-dynamic for `InlineDynamic`, and HAL for a
value that is none of the named ones; the three hardware-abstraction stages are pairwise
distinct. -/
theorem C6_stream_then_one_hal (cfg : BuildConfig)
    (bindingOptions : BindingOptions) (inputOptions : InputDialectOptions cfg)
    (highLevelOptimizationOptions : HighLevelOptimizationOptions)
    (schedulingOptions : SchedulingOptions)
    (executableOptions : IREE.HAL.TargetOptions)
    (targetOptions : IREE.VM.TargetOptions) (hooks : IREEVMPipelineHooks)
    (l : OpPassManager)
    (hmodel : schedulingOptions.executionModel ≠ SchedulingOptions.ExecutionModel.HostOnly)
    (hbuild : buildIREEVMTransformPassPipeline cfg bindingOptions inputOptions
        highLevelOptimizationOptions schedulingOptions executableOptions targetOptions hooks
        [] = Except.ok l) :
    ∃ pre streamOptions hal post,
      l = pre ++ [Stage.StreamTransformPassPipeline streamOptions, hal] ++ post ∧
      (∀ s ∈ pre, s.isStream = false ∧ s.isHardwareAbstraction = false) ∧
      (∀ s ∈ post, s.isStream = false ∧ s.isHardwareAbstraction = false) ∧
      (schedulingOptions.executionModel = SchedulingOptions.ExecutionModel.AsyncInternal →
        hal = Stage.HALTransformPassPipeline executableOptions) ∧
      (schedulingOptions.executionModel = SchedulingOptions.ExecutionModel.AsyncExternal →
        hal = Stage.HALTransformPassPipeline executableOptions) ∧
      (schedulingOptions.executionModel = SchedulingOptions.ExecutionModel.InlineStatic →
        hal = Stage.HALInlineStaticTransformPassPipeline executableOptions) ∧
      (schedulingOptions.executionModel = SchedulingOptions.ExecutionModel.InlineDynamic →
        hal = Stage.HALInlineDynamicTransformPassPipeline executableOptions) ∧
      (∀ raw,
        schedulingOptions.executionModel = SchedulingOptions.ExecutionModel.unnamed raw →
        hal = Stage.HALTransformPassPipeline executableOptions) ∧
      (∀ o1 o2, Stage.HALTransformPassPipeline o1 ≠
          Stage.HALInlineStaticTransformPassPipeline o2 ∧
        Stage.HALTransformPassPipeline o1 ≠ Stage.HALInlineDynamicTransformPassPipeline o2 ∧
        Stage.HALInlineStaticTransformPassPipeline o1 ≠
          Stage.HALInlineDynamicTransformPassPipeline o2) := by
  have hl := buildIREEVMTransformPassPipeline_ok _ _ _ _ _ _ _ _ _ _ hbuild
  subst hl
  have hpre := mem_inputConversionStages inputOptions.type
  refine ⟨inputConversionStages inputOptions.type ++
      [Stage.CommonInputConversionPassPipeline] ++ bindingStages bindingOptions ++
      stripStages highLevelOptimizationOptions ++
      [Stage.FlowTransformPassPipeline
        (resolvedFlowOptions highLevelOptimizationOptions hooks)],
    resolvedStreamOptions schedulingOptions,
    hardwareAbstractionStage executableOptions schedulingOptions.executionModel,
    [Stage.VMTransformPassPipeline targetOptions, Stage.DropCompilerHintsPass],
    ?_, ?_, ?_, ?_, ?_, ?_, ?_, ?_, ?_⟩
  · obtain ⟨model, fmt, file⟩ := schedulingOptions
    cases model <;> first | exact absurd rfl hmodel | simp [schedulingStages]
  · intro s hs
    simp only [List.mem_append, List.mem_cons, List.mem_singleton, List.not_mem_nil, or_false,
      mem_bindingStages, mem_stripStages] at hs
    rcases hs with (((hs | rfl) | ⟨_, rfl⟩ | ⟨_, rfl⟩) | ⟨_, rfl⟩) | rfl
    · have := hpre s hs
      cases s <;> simp [Stage.isInputConversion] at this <;>
        simp [Stage.isStream, Stage.isHardwareAbstraction]
    all_goals exact ⟨rfl, rfl⟩
  · intro s hs
    simp only [List.mem_cons, List.mem_singleton, List.not_mem_nil, or_false] at hs
    rcases hs with rfl | rfl <;> exact ⟨rfl, rfl⟩
  · intro h
    rw [h]
    rfl
  · intro h
    rw [h]
    rfl
  · intro h
    rw [h]
    rfl
  · intro h
    rw [h]
    rfl
  · intro raw h
    rw [h]
    rfl
  · intro o1 o2
    simp

/-- Witness of C6: the example options with input `tosa` and the model `InlineDynamic`. -/
theorem C6_stream_then_one_hal_witness :
    (exampleScheduling .InlineDynamic).executionModel ≠
      SchedulingOptions.ExecutionModel.HostOnly ∧
    buildIREEVMTransformPassPipeline exampleDebugBuild exampleBinding ⟨.tosa rfl⟩
        exampleOptimization (exampleScheduling .InlineDynamic) exampleExecutableOptions
        exampleTargetOptions exampleHooks [] =
      Except.ok (Stage.TOSAInputConversionPassPipeline ::
        exampleInlineRest
          (Stage.HALInlineDynamicTransformPassPipeline exampleExecutableOptions)) ∧
    ∃ pre streamOptions hal post,
      Stage.TOSAInputConversionPassPipeline ::
        exampleInlineRest
          (Stage.HALInlineDynamicTransformPassPipeline exampleExecutableOptions) =
        pre ++ [Stage.StreamTransformPassPipeline streamOptions, hal] ++ post ∧
      (∀ s ∈ pre, s.isStream = false ∧ s.isHardwareAbstraction = false) ∧
      (∀ s ∈ post, s.isStream = false ∧ s.isHardwareAbstraction = false) ∧
      ((exampleScheduling .InlineDynamic).executionModel =
          SchedulingOptions.ExecutionModel.AsyncInternal →
        hal = Stage.HALTransformPassPipeline exampleExecutableOptions) ∧
      ((exampleScheduling .InlineDynamic).executionModel =
          SchedulingOptions.ExecutionModel.AsyncExternal →
        hal = Stage.HALTransformPassPipeline exampleExecutableOptions) ∧
      ((exampleScheduling .InlineDynamic).executionModel =
          SchedulingOptions.ExecutionModel.InlineStatic →
        hal = Stage.HALInlineStaticTransformPassPipeline exampleExecutableOptions) ∧
      ((exampleScheduling .InlineDynamic).executionModel =
          SchedulingOptions.ExecutionModel.InlineDynamic →
        hal = Stage.HALInlineDynamicTransformPassPipeline exampleExecutableOptions) ∧
      (∀ raw, (exampleScheduling .InlineDynamic).executionModel =
          SchedulingOptions.ExecutionModel.unnamed raw →
        hal = Stage.HALTransformPassPipeline exampleExecutableOptions) ∧
      (∀ o1 o2, Stage.HALTransformPassPipeline o1 ≠
          Stage.HALInlineStaticTransformPassPipeline o2 ∧
        Stage.HALTransformPassPipeline o1 ≠ Stage.HALInlineDynamicTransformPassPipeline o2 ∧
        Stage.HALInlineStaticTransformPassPipeline o1 ≠
          Stage.HALInlineDynamicTransformPassPipeline o2) :=
  ⟨by decide, by rfl, C6_stream_then_one_hal exampleDebugBuild exampleBinding ⟨.tosa rfl⟩
    exampleOptimization (exampleScheduling .InlineDynamic) exampleExecutableOptions
    exampleTargetOptions exampleHooks _ (by decide) (by rfl)⟩

/-- C7: with `executionModel = HostOnly`, whatever the other option groups and the hooks are,
the built stage list holds neither the scheduling-lowering (Stream) stage nor any of the
three hardware-abstraction stages. -/
theorem C7_hostOnly_has_no_stream_nor_hal (cfg : BuildConfig)
    (bindingOptions : BindingOptions) (inputOptions : InputDialectOptions cfg)
    (highLevelOptimizationOptions : HighLevelOptimizationOptions)
    (schedulingOptions : SchedulingOptions)
    (executableOptions : IREE.HAL.TargetOptions)
    (targetOptions : IREE.VM.TargetOptions) (hooks : IREEVMPipelineHooks)
    (l : OpPassManager)
    (hmodel : schedulingOptions.executionModel = SchedulingOptions.ExecutionModel.HostOnly)
    (hbuild : buildIREEVMTransformPassPipeline cfg bindingOptions inputOptions
        highLevelOptimizationOptions schedulingOptions executableOptions targetOptions hooks
        [] = Except.ok l) :
    (∀ o, Stage.StreamTransformPassPipeline o ∉ l) ∧
    (∀ o, Stage.HALTransformPassPipeline o ∉ l) ∧
    (∀ o, Stage.HALInlineStaticTransformPassPipeline o ∉ l) ∧
    (∀ o, Stage.HALInlineDynamicTransformPassPipeline o ∉ l) := by
  have hl := buildIREEVMTransformPassPipeline_ok _ _ _ _ _ _ _ _ _ _ hbuild
  subst hl
  have hin := fun s => mem_inputConversionStages inputOptions.type s
  refine ⟨?_, ?_, ?_, ?_⟩ <;> intro o hmem <;>
    simp only [List.nil_append, List.mem_append, List.mem_cons, List.mem_singleton,
      mem_bindingStages, mem_stripStages, mem_schedulingStages, hmodel, ne_eq,
      not_true_eq_false, false_and, or_false, List.not_mem_nil, reduceCtorEq, and_false,
      false_or] at hmem <;>
    exact absurd (hin _ hmem) (by simp [Stage.isInputConversion])

/-- Witness of C7: a host-only build with input `xla`, both bindings, assertion stripping and
const-eval requested with a hook. -/
theorem C7_hostOnly_has_no_stream_nor_hal_witness :
    (exampleScheduling .HostOnly).executionModel = SchedulingOptions.ExecutionModel.HostOnly ∧
    buildIREEVMTransformPassPipeline exampleDebugBuild exampleBinding ⟨.xla rfl⟩
        exampleOptimization (exampleScheduling .HostOnly) exampleExecutableOptions
        exampleTargetOptions exampleHooks [] = Except.ok exampleHostOnlyStages ∧
    ((∀ o, Stage.StreamTransformPassPipeline o ∉ exampleHostOnlyStages) ∧
    (∀ o, Stage.HALTransformPassPipeline o ∉ exampleHostOnlyStages) ∧
    (∀ o, Stage.HALInlineStaticTransformPassPipeline o ∉ exampleHostOnlyStages) ∧
    (∀ o, Stage.HALInlineDynamicTransformPassPipeline o ∉ exampleHostOnlyStages)) :=
  ⟨rfl, by rfl, C7_hostOnly_has_no_stream_nor_hal exampleDebugBuild exampleBinding ⟨.xla rfl⟩
    exampleOptimization (exampleScheduling .HostOnly) exampleExecutableOptions
    exampleTargetOptions exampleHooks exampleHostOnlyStages rfl (by rfl)⟩

/-- C8: the native-binding stage is in the built stage list exactly when `native` is set and
the alternate (TFLite) binding stage exactly when `tflite` is set, each at most once and
independently of the other flag. The binding stages follow the common input normalization
directly, the native one first; only input-conversion stages come before the common input
normalization, and only assertion stripping, Flow, Stream, hardware-abstraction, VM and
cleanup stages come after the binding stages. -/
theorem C8_binding_stages (cfg : BuildConfig)
    (bindingOptions : BindingOptions) (inputOptions : InputDialectOptions cfg)
    (highLevelOptimizationOptions : HighLevelOptimizationOptions)
    (schedulingOptions : SchedulingOptions)
    (executableOptions : IREE.HAL.TargetOptions)
    (targetOptions : IREE.VM.TargetOptions) (hooks : IREEVMPipelineHooks)
    (l : OpPassManager)
    (hbuild : buildIREEVMTransformPassPipeline cfg bindingOptions inputOptions
        highLevelOptimizationOptions schedulingOptions executableOptions targetOptions hooks
        [] = Except.ok l) :
    (Stage.ABITransformPassPipeline ∈ l ↔ bindingOptions.native = true) ∧
    (Stage.TFLiteTransformPassPipeline ∈ l ↔ bindingOptions.tflite = true) ∧
    l.count Stage.ABITransformPassPipeline ≤ 1 ∧
    l.count Stage.TFLiteTransformPassPipeline ≤ 1 ∧
    ∃ pre post,
      l = pre ++ [Stage.CommonInputConversionPassPipeline] ++
        ((if bindingOptions.native = true then [Stage.ABITransformPassPipeline] else []) ++
          (if bindingOptions.tflite = true then [Stage.TFLiteTransformPassPipeline] else []))
        ++ post ∧
      (∀ s ∈ pre, s.isInputConversion = true) ∧
      (∀ s ∈ post, s = Stage.StripDebugOpsPass ∨ s.isFlow = true ∨
        s.isFurtherLowering = true ∨ s = Stage.DropCompilerHintsPass) := by
  have hl := buildIREEVMTransformPassPipeline_ok _ _ _ _ _ _ _ _ _ _ hbuild
  subst hl
  have hhal := hardwareAbstractionStage_isHardwareAbstraction executableOptions
    schedulingOptions.executionModel
  have hpost : ∀ s ∈ stripStages highLevelOptimizationOptions ++
      schedulingStages highLevelOptimizationOptions schedulingOptions executableOptions
        hooks ++
      [Stage.VMTransformPassPipeline targetOptions, Stage.DropCompilerHintsPass],
      s = Stage.StripDebugOpsPass ∨ s.isFlow = true ∨
        s.isFurtherLowering = true ∨ s = Stage.DropCompilerHintsPass := by
    intro s hs
    simp only [List.mem_append, List.mem_cons, List.mem_singleton, List.not_mem_nil, or_false,
      mem_stripStages, mem_schedulingStages] at hs
    rcases hs with (⟨_, rfl⟩ | ⟨_, rfl | rfl | rfl⟩) | rfl | rfl
    · exact Or.inl rfl
    · exact Or.inr (Or.inl rfl)
    · exact Or.inr (Or.inr (Or.inl rfl))
    · exact Or.inr (Or.inr (Or.inl (by simp [Stage.isFurtherLowering, hhal])))
    · exact Or.inr (Or.inr (Or.inl rfl))
    · exact Or.inr (Or.inr (Or.inr rfl))
  have hpre := mem_inputConversionStages inputOptions.type
  have hnotpre : ∀ s, s.isInputConversion = false →
      s ∉ inputConversionStages inputOptions.type :=
    not_mem_inputConversionStages inputOptions.type
  have hnotpost : ∀ s, s.isBinding = true →
      s ∉ stripStages highLevelOptimizationOptions ++
      schedulingStages highLevelOptimizationOptions schedulingOptions executableOptions
        hooks ++
      [Stage.VMTransformPassPipeline targetOptions, Stage.DropCompilerHintsPass] := by
    intro s hs hmem
    rcases hpost s hmem with rfl | h | h | rfl
    · cases hs
    · cases s <;> simp [Stage.isBinding, Stage.isFlow] at hs h
    · cases s <;> simp [Stage.isBinding, Stage.isFurtherLowering, Stage.isStream,
        Stage.isHardwareAbstraction, Stage.isVM] at hs h
    · cases hs
  have hA1 := hnotpre Stage.ABITransformPassPipeline rfl
  have hA2 := hnotpost Stage.ABITransformPassPipeline rfl
  have hT1 := hnotpre Stage.TFLiteTransformPassPipeline rfl
  have hT2 := hnotpost Stage.TFLiteTransformPassPipeline rfl
  simp only [List.mem_append, not_or] at hA2 hT2
  obtain ⟨native, tflite⟩ := bindingOptions
  refine ⟨?_, ?_, ?_, ?_, inputConversionStages inputOptions.type,
    stripStages highLevelOptimizationOptions ++
      schedulingStages highLevelOptimizationOptions schedulingOptions executableOptions
        hooks ++
      [Stage.VMTransformPassPipeline targetOptions, Stage.DropCompilerHintsPass],
    ?_, hpre, hpost⟩
  · cases native <;> cases tflite <;> simp [bindingStages, hA1, hA2]
  · cases native <;> cases tflite <;> simp [bindingStages, hT1, hT2]
  · cases native <;> cases tflite <;>
      simp [bindingStages, List.count_append, List.count_eq_zero_of_not_mem, hA1, hA2]
  · cases native <;> cases tflite <;>
      simp [bindingStages, List.count_append, List.count_eq_zero_of_not_mem, hT1, hT2]
  · simp [bindingStages]

/-- Witness of C8: the example options, which set both bindings, with the model
`AsyncInternal`. -/
theorem C8_binding_stages_witness :
    buildIREEVMTransformPassPipeline exampleDebugBuild exampleBinding ⟨.none⟩
        exampleOptimization (exampleScheduling .AsyncInternal) exampleExecutableOptions
        exampleTargetOptions exampleHooks [] = Except.ok exampleAsyncStages ∧
    ((Stage.ABITransformPassPipeline ∈ exampleAsyncStages ↔ exampleBinding.native = true) ∧
    (Stage.TFLiteTransformPassPipeline ∈ exampleAsyncStages ↔ exampleBinding.tflite = true) ∧
    exampleAsyncStages.count Stage.ABITransformPassPipeline ≤ 1 ∧
    exampleAsyncStages.count Stage.TFLiteTransformPassPipeline ≤ 1 ∧
    ∃ pre post,
      exampleAsyncStages = pre ++ [Stage.CommonInputConversionPassPipeline] ++
        ((if exampleBinding.native = true then [Stage.ABITransformPassPipeline] else []) ++
          (if exampleBinding.tflite = true then [Stage.TFLiteTransformPassPipeline] else []))
        ++ post ∧
      (∀ s ∈ pre, s.isInputConversion = true) ∧
      (∀ s ∈ post, s = Stage.StripDebugOpsPass ∨ s.isFlow = true ∨
        s.isFurtherLowering = true ∨ s = Stage.DropCompilerHintsPass)) :=
  ⟨by rfl, C8_binding_stages exampleDebugBuild exampleBinding ⟨.none⟩
    exampleOptimization (exampleScheduling .AsyncInternal) exampleExecutableOptions
    exampleTargetOptions exampleHooks exampleAsyncStages (by rfl)⟩

/-- C9: for every input-dialect variant other than `none`, the built stage list begins with
the conversion stages of that variant and holds no other dialect-specific stage: `mhlo` gives
the MHLO conversion, `xla` the XLA cleanup followed by the same MHLO conversion, `tm_tensor`
the TMTensor-to-LinalgExt pass nested on functions, `tosa` the TOSA conversion; what follows
starts with the common input normalization. With the other options fixed, the `xla` result
is the `mhlo` result with the XLA cleanup stage put in front. -/
theorem C9_input_variant_stages (cfg : BuildConfig)
    (bindingOptions : BindingOptions) (type : InputDialectOptions.InputType cfg)
    (highLevelOptimizationOptions : HighLevelOptimizationOptions)
    (schedulingOptions : SchedulingOptions)
    (executableOptions : IREE.HAL.TargetOptions)
    (targetOptions : IREE.VM.TargetOptions) (hooks : IREEVMPipelineHooks)
    (l : OpPassManager)
    (hbuild : buildIREEVMTransformPassPipeline cfg bindingOptions { type := type }
        highLevelOptimizationOptions schedulingOptions executableOptions targetOptions hooks
        [] = Except.ok l) :
    ∃ rest, rest.head? = some Stage.CommonInputConversionPassPipeline ∧
      (∀ s ∈ rest, s.isInputConversion = false) ∧
      (∀ h, type = InputDialectOptions.InputType.mhlo h →
        l = Stage.MHLOInputConversionPassPipeline :: rest) ∧
      (∀ h, type = InputDialectOptions.InputType.xla h →
        l = Stage.XLACleanupPassPipeline :: Stage.MHLOInputConversionPassPipeline :: rest) ∧
      (∀ h, type = InputDialectOptions.InputType.tm_tensor h →
        l = Stage.ConvertTMTensorToLinalgExtPass "func.func" :: rest) ∧
      (∀ h, type = InputDialectOptions.InputType.tosa h →
        l = Stage.TOSAInputConversionPassPipeline :: rest) ∧
      (∀ h, buildIREEVMTransformPassPipeline cfg bindingOptions
          { type := InputDialectOptions.InputType.xla h }
          highLevelOptimizationOptions schedulingOptions executableOptions targetOptions hooks
          [] =
        (buildIREEVMTransformPassPipeline cfg bindingOptions
          { type := InputDialectOptions.InputType.mhlo h }
          highLevelOptimizationOptions schedulingOptions executableOptions targetOptions hooks
          []).map (fun stages => Stage.XLACleanupPassPipeline :: stages)) := by
  have hl := buildIREEVMTransformPassPipeline_ok _ _ _ _ _ _ _ _ _ _ hbuild
  subst hl
  have hhal := hardwareAbstractionStage_isHardwareAbstraction executableOptions
    schedulingOptions.executionModel
  refine ⟨[Stage.CommonInputConversionPassPipeline] ++ bindingStages bindingOptions ++
      stripStages highLevelOptimizationOptions ++
      schedulingStages highLevelOptimizationOptions schedulingOptions executableOptions
        hooks ++
      [Stage.VMTransformPassPipeline targetOptions, Stage.DropCompilerHintsPass],
    by simp, ?_, ?_, ?_, ?_, ?_, ?_⟩
  · intro s hs
    simp only [List.mem_append, List.mem_cons, List.mem_singleton, List.not_mem_nil, or_false,
      mem_bindingStages, mem_stripStages, mem_schedulingStages] at hs
    rcases hs with (((rfl | ⟨_, rfl⟩ | ⟨_, rfl⟩) | ⟨_, rfl⟩) | ⟨_, rfl | rfl | rfl⟩) | rfl | rfl
      <;> first | rfl | (cases schedulingOptions.executionModel <;> rfl)
  · intro h ht
    subst ht
    simp [inputConversionStages]
  · intro h ht
    subst ht
    simp [inputConversionStages]
  · intro h ht
    subst ht
    simp [inputConversionStages]
  · intro h ht
    subst ht
    simp [inputConversionStages]
  · intro h
    rw [buildIREEVMTransformPassPipeline_eq, buildIREEVMTransformPassPipeline_eq]
    cases assertionFails cfg highLevelOptimizationOptions hooks <;>
      simp [Except.map, inputConversionStages]

/-- Witness of C9: the example options with input `xla` and the model `InlineStatic`. -/
theorem C9_input_variant_stages_witness :
    buildIREEVMTransformPassPipeline exampleDebugBuild exampleBinding
        { type := InputDialectOptions.InputType.xla rfl }
        exampleOptimization (exampleScheduling .InlineStatic) exampleExecutableOptions
        exampleTargetOptions exampleHooks [] =
      Except.ok (Stage.XLACleanupPassPipeline :: Stage.MHLOInputConversionPassPipeline ::
        exampleInlineRest
          (Stage.HALInlineStaticTransformPassPipeline exampleExecutableOptions)) ∧
    ∃ rest, rest.head? = some Stage.CommonInputConversionPassPipeline ∧
      (∀ s ∈ rest, s.isInputConversion = false) ∧
      (∀ h, (InputDialectOptions.InputType.xla rfl :
          InputDialectOptions.InputType exampleDebugBuild) =
          InputDialectOptions.InputType.mhlo h →
        Stage.XLACleanupPassPipeline :: Stage.MHLOInputConversionPassPipeline ::
          exampleInlineRest
            (Stage.HALInlineStaticTransformPassPipeline exampleExecutableOptions) =
          Stage.MHLOInputConversionPassPipeline :: rest) ∧
      (∀ h, (InputDialectOptions.InputType.xla rfl :
          InputDialectOptions.InputType exampleDebugBuild) =
          InputDialectOptions.InputType.xla h →
        Stage.XLACleanupPassPipeline :: Stage.MHLOInputConversionPassPipeline ::
          exampleInlineRest
            (Stage.HALInlineStaticTransformPassPipeline exampleExecutableOptions) =
          Stage.XLACleanupPassPipeline :: Stage.MHLOInputConversionPassPipeline :: rest) ∧
      (∀ h, (InputDialectOptions.InputType.xla rfl :
          InputDialectOptions.InputType exampleDebugBuild) =
          InputDialectOptions.InputType.tm_tensor h →
        Stage.XLACleanupPassPipeline :: Stage.MHLOInputConversionPassPipeline ::
          exampleInlineRest
            (Stage.HALInlineStaticTransformPassPipeline exampleExecutableOptions) =
          Stage.ConvertTMTensorToLinalgExtPass "func.func" :: rest) ∧
      (∀ h, (InputDialectOptions.InputType.xla rfl :
          InputDialectOptions.InputType exampleDebugBuild) =
          InputDialectOptions.InputType.tosa h →
        Stage.XLACleanupPassPipeline :: Stage.MHLOInputConversionPassPipeline ::
          exampleInlineRest
            (Stage.HALInlineStaticTransformPassPipeline exampleExecutableOptions) =
          Stage.TOSAInputConversionPassPipeline :: rest) ∧
      (∀ h, buildIREEVMTransformPassPipeline exampleDebugBuild exampleBinding
          { type := InputDialectOptions.InputType.xla h }
          exampleOptimization (exampleScheduling .InlineStatic) exampleExecutableOptions
          exampleTargetOptions exampleHooks [] =
        (buildIREEVMTransformPassPipeline exampleDebugBuild exampleBinding
          { type := InputDialectOptions.InputType.mhlo h }
          exampleOptimization (exampleScheduling .InlineStatic) exampleExecutableOptions
          exampleTargetOptions exampleHooks
          []).map (fun stages => Stage.XLACleanupPassPipeline :: stages)) :=
  ⟨by rfl, C9_input_variant_stages exampleDebugBuild exampleBinding
    (InputDialectOptions.InputType.xla rfl)
    exampleOptimization (exampleScheduling .InlineStatic) exampleExecutableOptions
    exampleTargetOptions exampleHooks _ (by rfl)⟩

/-- C10: with the input dialect `none`, whatever the other option groups and the hooks are,
the built stage list holds no dialect-specific conversion stage (MHLO conversion, XLA
cleanup, TMTensor, TOSA), and its first stage is the common input normalization. -/
theorem C10_none_has_no_input_conversion (cfg : BuildConfig)
    (bindingOptions : BindingOptions) (inputOptions : InputDialectOptions cfg)
    (highLevelOptimizationOptions : HighLevelOptimizationOptions)
    (schedulingOptions : SchedulingOptions)
    (executableOptions : IREE.HAL.TargetOptions)
    (targetOptions : IREE.VM.TargetOptions) (hooks : IREEVMPipelineHooks)
    (l : OpPassManager)
    (htype : inputOptions.type = InputDialectOptions.InputType.none)
    (hbuild : buildIREEVMTransformPassPipeline cfg bindingOptions inputOptions
        highLevelOptimizationOptions schedulingOptions executableOptions targetOptions hooks
        [] = Except.ok l) :
    Stage.MHLOInputConversionPassPipeline ∉ l ∧
    Stage.XLACleanupPassPipeline ∉ l ∧
    (∀ nestedOn, Stage.ConvertTMTensorToLinalgExtPass nestedOn ∉ l) ∧
    Stage.TOSAInputConversionPassPipeline ∉ l ∧
    l.head? = some Stage.CommonInputConversionPassPipeline := by
  have hl := buildIREEVMTransformPassPipeline_ok _ _ _ _ _ _ _ _ _ _ hbuild
  subst hl
  have hhal := ne_hardwareAbstractionStage executableOptions schedulingOptions.executionModel
  have h1 := hhal Stage.MHLOInputConversionPassPipeline rfl
  have h2 := hhal Stage.XLACleanupPassPipeline rfl
  have h3 := fun nestedOn => hhal (Stage.ConvertTMTensorToLinalgExtPass nestedOn) rfl
  have h4 := hhal Stage.TOSAInputConversionPassPipeline rfl
  refine ⟨?_, ?_, ?_, ?_, ?_⟩
  · simp [htype, inputConversionStages, mem_bindingStages, mem_stripStages,
      mem_schedulingStages, h1]
  · simp [htype, inputConversionStages, mem_bindingStages, mem_stripStages,
      mem_schedulingStages, h2]
  · intro nestedOn
    simp [htype, inputConversionStages, mem_bindingStages, mem_stripStages,
      mem_schedulingStages, h3]
  · simp [htype, inputConversionStages, mem_bindingStages, mem_stripStages,
      mem_schedulingStages, h4]
  · simp [htype, inputConversionStages]

/-- Witness of C10: the example options with input `none` and the model `AsyncInternal`. -/
theorem C10_none_has_no_input_conversion_witness :
    (⟨.none⟩ : InputDialectOptions exampleDebugBuild).type =
      InputDialectOptions.InputType.none ∧
    buildIREEVMTransformPassPipeline exampleDebugBuild exampleBinding ⟨.none⟩
        exampleOptimization (exampleScheduling .AsyncInternal) exampleExecutableOptions
        exampleTargetOptions exampleHooks [] = Except.ok exampleAsyncStages ∧
    (Stage.MHLOInputConversionPassPipeline ∉ exampleAsyncStages ∧
    Stage.XLACleanupPassPipeline ∉ exampleAsyncStages ∧
    (∀ nestedOn, Stage.ConvertTMTensorToLinalgExtPass nestedOn ∉ exampleAsyncStages) ∧
    Stage.TOSAInputConversionPassPipeline ∉ exampleAsyncStages ∧
    exampleAsyncStages.head? = some Stage.CommonInputConversionPassPipeline) :=
  ⟨rfl, by rfl, C10_none_has_no_input_conversion exampleDebugBuild exampleBinding ⟨.none⟩
    exampleOptimization (exampleScheduling .AsyncInternal) exampleExecutableOptions
    exampleTargetOptions exampleHooks exampleAsyncStages rfl (by rfl)⟩

/-- C11: a successful build holds the dialect-agnostic common input-normalization stage
exactly once; only input-dialect conversion stages come before it, and what comes after it,
the binding stages and every later stage, holds no input-dialect conversion stage. -/
theorem C11_common_input_conversion_once (cfg : BuildConfig)
    (bindingOptions : BindingOptions) (inputOptions : InputDialectOptions cfg)
    (highLevelOptimizationOptions : HighLevelOptimizationOptions)
    (schedulingOptions : SchedulingOptions)
    (executableOptions : IREE.HAL.TargetOptions)
    (targetOptions : IREE.VM.TargetOptions) (hooks : IREEVMPipelineHooks)
    (l : OpPassManager)
    (hbuild : buildIREEVMTransformPassPipeline cfg bindingOptions inputOptions
        highLevelOptimizationOptions schedulingOptions executableOptions targetOptions hooks
        [] = Except.ok l) :
    l.count Stage.CommonInputConversionPassPipeline = 1 ∧
    ∃ pre post, l = pre ++ [Stage.CommonInputConversionPassPipeline] ++ post ∧
      (∀ s ∈ pre, s.isInputConversion = true) ∧
      (∀ s ∈ post, s.isInputConversion = false ∧
        s ≠ Stage.CommonInputConversionPassPipeline) ∧
      (∀ s ∈ l, s.isBinding = true ∨ s = Stage.StripDebugOpsPass ∨ s.isFlow = true ∨
        s.isFurtherLowering = true ∨ s = Stage.DropCompilerHintsPass → s ∈ post) := by
  have hl := buildIREEVMTransformPassPipeline_ok _ _ _ _ _ _ _ _ _ _ hbuild
  subst hl
  have hpre := mem_inputConversionStages inputOptions.type
  have hhal := hardwareAbstractionStage_isHardwareAbstraction executableOptions
    schedulingOptions.executionModel
  have hpost : ∀ s ∈ bindingStages bindingOptions ++
      stripStages highLevelOptimizationOptions ++
      schedulingStages highLevelOptimizationOptions schedulingOptions executableOptions
        hooks ++
      [Stage.VMTransformPassPipeline targetOptions, Stage.DropCompilerHintsPass],
      s.isInputConversion = false ∧ s ≠ Stage.CommonInputConversionPassPipeline := by
    intro s hs
    simp only [List.mem_append, List.mem_cons, List.mem_singleton, List.not_mem_nil, or_false,
      mem_bindingStages, mem_stripStages, mem_schedulingStages] at hs
    rcases hs with (((⟨_, rfl⟩ | ⟨_, rfl⟩) | ⟨_, rfl⟩) | ⟨_, rfl | rfl | rfl⟩) | rfl | rfl
    · exact ⟨rfl, by simp⟩
    · exact ⟨rfl, by simp⟩
    · exact ⟨rfl, by simp⟩
    · exact ⟨rfl, by simp⟩
    · exact ⟨rfl, by simp⟩
    · cases schedulingOptions.executionModel <;>
        exact ⟨rfl, by simp [hardwareAbstractionStage]⟩
    · exact ⟨rfl, by simp⟩
    · exact ⟨rfl, by simp⟩
  have hnotpre : Stage.CommonInputConversionPassPipeline ∉
      inputConversionStages inputOptions.type :=
    not_mem_inputConversionStages inputOptions.type _ rfl
  have hnotpost : Stage.CommonInputConversionPassPipeline ∉
      bindingStages bindingOptions ++
      stripStages highLevelOptimizationOptions ++
      schedulingStages highLevelOptimizationOptions schedulingOptions executableOptions
        hooks ++
      [Stage.VMTransformPassPipeline targetOptions, Stage.DropCompilerHintsPass] :=
    fun hmem => (hpost _ hmem).2 rfl
  have hshape : ([] : OpPassManager) ++ (inputConversionStages inputOptions.type ++
        [Stage.CommonInputConversionPassPipeline] ++ bindingStages bindingOptions ++
        stripStages highLevelOptimizationOptions ++
        schedulingStages highLevelOptimizationOptions schedulingOptions executableOptions
          hooks ++
        [Stage.VMTransformPassPipeline targetOptions, Stage.DropCompilerHintsPass]) =
      inputConversionStages inputOptions.type ++ [Stage.CommonInputConversionPassPipeline] ++
        (bindingStages bindingOptions ++
        stripStages highLevelOptimizationOptions ++
        schedulingStages highLevelOptimizationOptions schedulingOptions executableOptions
          hooks ++
        [Stage.VMTransformPassPipeline targetOptions, Stage.DropCompilerHintsPass]) := by
    simp only [List.nil_append, List.append_assoc]
  rw [hshape]
  refine ⟨?_, _, _, rfl, hpre, hpost, ?_⟩
  · rw [List.count_append, List.count_append, List.count_eq_zero_of_not_mem hnotpre,
      List.count_eq_zero_of_not_mem hnotpost]
    simp
  · intro s hs hclass
    rcases List.mem_append.mp hs with hs | hs
    · rcases List.mem_append.mp hs with hs | hs
      · have hin := hpre s hs
        cases s <;> simp [Stage.isInputConversion] at hin <;>
          simp [Stage.isBinding, Stage.isFlow, Stage.isFurtherLowering, Stage.isStream,
            Stage.isHardwareAbstraction, Stage.isVM] at hclass
      · rw [List.mem_singleton.mp hs] at hclass
        simp [Stage.isBinding, Stage.isFlow, Stage.isFurtherLowering, Stage.isStream,
            Stage.isHardwareAbstraction, Stage.isVM] at hclass
    · exact hs

/-- Witness of C11: the example options with input `xla` and the host-only model. -/
theorem C11_common_input_conversion_once_witness :
    buildIREEVMTransformPassPipeline exampleDebugBuild exampleBinding ⟨.xla rfl⟩
        exampleOptimization (exampleScheduling .HostOnly) exampleExecutableOptions
        exampleTargetOptions exampleHooks [] = Except.ok exampleHostOnlyStages ∧
    (exampleHostOnlyStages.count Stage.CommonInputConversionPassPipeline = 1 ∧
    ∃ pre post, exampleHostOnlyStages =
        pre ++ [Stage.CommonInputConversionPassPipeline] ++ post ∧
      (∀ s ∈ pre, s.isInputConversion = true) ∧
      (∀ s ∈ post, s.isInputConversion = false ∧
        s ≠ Stage.CommonInputConversionPassPipeline) ∧
      (∀ s ∈ exampleHostOnlyStages, s.isBinding = true ∨ s = Stage.StripDebugOpsPass ∨
        s.isFlow = true ∨ s.isFurtherLowering = true ∨ s = Stage.DropCompilerHintsPass →
        s ∈ post)) :=
  ⟨by rfl, C11_common_input_conversion_once exampleDebugBuild exampleBinding ⟨.xla rfl⟩
    exampleOptimization (exampleScheduling .HostOnly) exampleExecutableOptions
    exampleTargetOptions exampleHooks exampleHostOnlyStages (by rfl)⟩

/-- C12: the last two stages of a successful build are, in this order, the bytecode-lowering
(VM) stage with the bytecode target options given and the drop-compiler-hints cleanup, and
the list holds no other VM stage and no other cleanup stage. -/
theorem C12_ends_with_vm_then_drop_hints (cfg : BuildConfig)
    (bindingOptions : BindingOptions) (inputOptions : InputDialectOptions cfg)
    (highLevelOptimizationOptions : HighLevelOptimizationOptions)
    (schedulingOptions : SchedulingOptions)
    (executableOptions : IREE.HAL.TargetOptions)
    (targetOptions : IREE.VM.TargetOptions) (hooks : IREEVMPipelineHooks)
    (l : OpPassManager)
    (hbuild : buildIREEVMTransformPassPipeline cfg bindingOptions inputOptions
        highLevelOptimizationOptions schedulingOptions executableOptions targetOptions hooks
        [] = Except.ok l) :
    ∃ pre, l = pre ++
        [Stage.VMTransformPassPipeline targetOptions, Stage.DropCompilerHintsPass] ∧
      (∀ s ∈ pre, s.isVM = false ∧ s ≠ Stage.DropCompilerHintsPass) ∧
      l.count (Stage.VMTransformPassPipeline targetOptions) = 1 ∧
      l.count Stage.DropCompilerHintsPass = 1 := by
  have hl := buildIREEVMTransformPassPipeline_ok _ _ _ _ _ _ _ _ _ _ hbuild
  subst hl
  have hin := mem_inputConversionStages inputOptions.type
  have hpre : ∀ s ∈ inputConversionStages inputOptions.type ++
      [Stage.CommonInputConversionPassPipeline] ++ bindingStages bindingOptions ++
      stripStages highLevelOptimizationOptions ++
      schedulingStages highLevelOptimizationOptions schedulingOptions executableOptions
        hooks, s.isVM = false ∧ s ≠ Stage.DropCompilerHintsPass := by
    intro s hs
    simp only [List.mem_append, List.mem_cons, List.mem_singleton, List.not_mem_nil, or_false,
      mem_bindingStages, mem_stripStages, mem_schedulingStages] at hs
    rcases hs with (((hs | rfl) | ⟨_, rfl⟩ | ⟨_, rfl⟩) | ⟨_, rfl⟩) | ⟨_, rfl | rfl | rfl⟩
    · have := hin s hs
      cases s <;> simp [Stage.isInputConversion] at this <;> simp [Stage.isVM]
    · exact ⟨rfl, by simp⟩
    · exact ⟨rfl, by simp⟩
    · exact ⟨rfl, by simp⟩
    · exact ⟨rfl, by simp⟩
    · exact ⟨rfl, by simp⟩
    · exact ⟨rfl, by simp⟩
    · cases schedulingOptions.executionModel <;>
        exact ⟨rfl, by simp [hardwareAbstractionStage]⟩
  have hvm : Stage.VMTransformPassPipeline targetOptions ∉
      inputConversionStages inputOptions.type ++
      [Stage.CommonInputConversionPassPipeline] ++ bindingStages bindingOptions ++
      stripStages highLevelOptimizationOptions ++
      schedulingStages highLevelOptimizationOptions schedulingOptions executableOptions
        hooks := fun hmem => by
    have := (hpre _ hmem).1
    simp [Stage.isVM] at this
  have hdrop : Stage.DropCompilerHintsPass ∉
      inputConversionStages inputOptions.type ++
      [Stage.CommonInputConversionPassPipeline] ++ bindingStages bindingOptions ++
      stripStages highLevelOptimizationOptions ++
      schedulingStages highLevelOptimizationOptions schedulingOptions executableOptions
        hooks := fun hmem => (hpre _ hmem).2 rfl
  rw [List.nil_append]
  refine ⟨_, rfl, hpre, ?_, ?_⟩
  · rw [List.count_append, List.count_eq_zero_of_not_mem hvm]
    simp
  · rw [List.count_append, List.count_eq_zero_of_not_mem hdrop]
    simp

/-- Witness of C12: the example options with input `none` and the model `AsyncInternal`. -/
theorem C12_ends_with_vm_then_drop_hints_witness :
    buildIREEVMTransformPassPipeline exampleDebugBuild exampleBinding ⟨.none⟩
        exampleOptimization (exampleScheduling .AsyncInternal) exampleExecutableOptions
        exampleTargetOptions exampleHooks [] = Except.ok exampleAsyncStages ∧
    ∃ pre, exampleAsyncStages = pre ++
        [Stage.VMTransformPassPipeline exampleTargetOptions, Stage.DropCompilerHintsPass] ∧
      (∀ s ∈ pre, s.isVM = false ∧ s ≠ Stage.DropCompilerHintsPass) ∧
      exampleAsyncStages.count (Stage.VMTransformPassPipeline exampleTargetOptions) = 1 ∧
      exampleAsyncStages.count Stage.DropCompilerHintsPass = 1 :=
  ⟨by rfl, C12_ends_with_vm_then_drop_hints exampleDebugBuild exampleBinding ⟨.none⟩
    exampleOptimization (exampleScheduling .AsyncInternal) exampleExecutableOptions
    exampleTargetOptions exampleHooks exampleAsyncStages (by rfl)⟩

/-- Every high-level-optimization stage of a successful build from an empty pass manager
carries the options resolved from the optimization options and the hooks. -/
theorem flow_mem_built (cfg : BuildConfig)
    (bindingOptions : BindingOptions) (inputOptions : InputDialectOptions cfg)
    (highLevelOptimizationOptions : HighLevelOptimizationOptions)
    (schedulingOptions : SchedulingOptions)
    (executableOptions : IREE.HAL.TargetOptions)
    (targetOptions : IREE.VM.TargetOptions) (hooks : IREEVMPipelineHooks)
    (l : OpPassManager) (flowOptions : IREE.Flow.TransformOptions)
    (hbuild : buildIREEVMTransformPassPipeline cfg bindingOptions inputOptions
        highLevelOptimizationOptions schedulingOptions executableOptions targetOptions hooks
        [] = Except.ok l)
    (hmem : Stage.FlowTransformPassPipeline flowOptions ∈ l) :
    flowOptions = resolvedFlowOptions highLevelOptimizationOptions hooks ∧
    schedulingOptions.executionModel ≠ SchedulingOptions.ExecutionModel.HostOnly := by
  have hl := buildIREEVMTransformPassPipeline_ok _ _ _ _ _ _ _ _ _ _ hbuild
  subst hl
  have hpre := mem_inputConversionStages inputOptions.type
  have hhal := ne_hardwareAbstractionStage executableOptions schedulingOptions.executionModel
  simp only [List.nil_append, List.mem_append, List.mem_cons, List.mem_singleton,
    List.not_mem_nil, or_false, mem_bindingStages, mem_stripStages, mem_schedulingStages,
    reduceCtorEq, and_false, false_or, or_false, Stage.FlowTransformPassPipeline.injEq]
    at hmem
  rcases hmem with hmem | ⟨hmodel, hmem | hmem⟩
  · exact absurd (hpre _ hmem) (by simp [Stage.isInputConversion])
  · exact ⟨hmem, hmodel⟩
  · exact absurd hmem (hhal _ rfl)

/-- C13: `constExprHoisting` and `numericPrecisionReduction` are options of the
high-level-optimization stage and add no stage of their own. When a build succeeds, the
build with the two flags changed to any other values succeeds too, with a list of the same
length that agrees with the first one position by position except where both hold the
high-level-optimization stage; and the high-level-optimization stage of each list carries
the values of the two flags it was built from. -/
theorem C13_hoisting_and_precision_are_suboptions (cfg : BuildConfig)
    (bindingOptions : BindingOptions) (inputOptions : InputDialectOptions cfg)
    (highLevelOptimizationOptions : HighLevelOptimizationOptions)
    (schedulingOptions : SchedulingOptions)
    (executableOptions : IREE.HAL.TargetOptions)
    (targetOptions : IREE.VM.TargetOptions) (hooks : IREEVMPipelineHooks)
    (l : OpPassManager) (hoisting precision : Bool)
    (hbuild : buildIREEVMTransformPassPipeline cfg bindingOptions inputOptions
        highLevelOptimizationOptions schedulingOptions executableOptions targetOptions hooks
        [] = Except.ok l) :
    ∃ changed, buildIREEVMTransformPassPipeline cfg bindingOptions inputOptions
        { highLevelOptimizationOptions with
          constExprHoisting := hoisting, numericPrecisionReduction := precision }
        schedulingOptions executableOptions targetOptions hooks [] = Except.ok changed ∧
      changed.length = l.length ∧
      List.Forall₂ (fun stage stage' => stage = stage' ∨
        (stage.isFlow = true ∧ stage'.isFlow = true)) l changed ∧
      (∀ flowOptions, Stage.FlowTransformPassPipeline flowOptions ∈ l →
        flowOptions.constExprHoisting = highLevelOptimizationOptions.constExprHoisting ∧
        flowOptions.numericPrecisionReduction =
          highLevelOptimizationOptions.numericPrecisionReduction) ∧
      (∀ flowOptions, Stage.FlowTransformPassPipeline flowOptions ∈ changed →
        flowOptions.constExprHoisting = hoisting ∧
        flowOptions.numericPrecisionReduction = precision) := by
  have hfail : assertionFails cfg
      { highLevelOptimizationOptions with
        constExprHoisting := hoisting, numericPrecisionReduction := precision } hooks =
      assertionFails cfg highLevelOptimizationOptions hooks := rfl
  have hok : assertionFails cfg highLevelOptimizationOptions hooks = false := by
    cases h : assertionFails cfg highLevelOptimizationOptions hooks
    · rfl
    · rw [buildIREEVMTransformPassPipeline_eq, h] at hbuild
      cases hbuild
  have hchanged : buildIREEVMTransformPassPipeline cfg bindingOptions inputOptions
      { highLevelOptimizationOptions with
        constExprHoisting := hoisting, numericPrecisionReduction := precision }
      schedulingOptions executableOptions targetOptions hooks [] =
      Except.ok ([] ++ (inputConversionStages inputOptions.type ++
        [Stage.CommonInputConversionPassPipeline] ++ bindingStages bindingOptions ++
        stripStages { highLevelOptimizationOptions with
          constExprHoisting := hoisting, numericPrecisionReduction := precision } ++
        schedulingStages { highLevelOptimizationOptions with
          constExprHoisting := hoisting, numericPrecisionReduction := precision }
          schedulingOptions executableOptions hooks ++
        [Stage.VMTransformPassPipeline targetOptions, Stage.DropCompilerHintsPass])) := by
    rw [buildIREEVMTransformPassPipeline_eq, hfail, hok]
    rfl
  have hrel : List.Forall₂ (fun stage stage' => stage = stage' ∨
      (stage.isFlow = true ∧ stage'.isFlow = true))
      (schedulingStages highLevelOptimizationOptions schedulingOptions executableOptions
        hooks)
      (schedulingStages { highLevelOptimizationOptions with
          constExprHoisting := hoisting, numericPrecisionReduction := precision }
        schedulingOptions executableOptions hooks) := by
    obtain ⟨model, fmt, file⟩ := schedulingOptions
    cases model <;> first
      | exact List.Forall₂.nil
      | exact List.Forall₂.cons (Or.inr ⟨rfl, rfl⟩)
          (List.forall₂_same.mpr (fun _ _ => Or.inl rfl))
  have hsame : ∀ stages : List Stage, List.Forall₂ (fun stage stage' => stage = stage' ∨
      (stage.isFlow = true ∧ stage'.isFlow = true)) stages stages :=
    fun stages => List.forall₂_same.mpr (fun _ _ => Or.inl rfl)
  have hall : List.Forall₂ (fun stage stage' => stage = stage' ∨
      (stage.isFlow = true ∧ stage'.isFlow = true)) l
      ([] ++ (inputConversionStages inputOptions.type ++
        [Stage.CommonInputConversionPassPipeline] ++ bindingStages bindingOptions ++
        stripStages { highLevelOptimizationOptions with
          constExprHoisting := hoisting, numericPrecisionReduction := precision } ++
        schedulingStages { highLevelOptimizationOptions with
          constExprHoisting := hoisting, numericPrecisionReduction := precision }
          schedulingOptions executableOptions hooks ++
        [Stage.VMTransformPassPipeline targetOptions, Stage.DropCompilerHintsPass])) := by
    rw [buildIREEVMTransformPassPipeline_ok _ _ _ _ _ _ _ _ _ _ hbuild]
    exact List.rel_append List.Forall₂.nil
      (List.rel_append (List.rel_append (hsame _) hrel) (hsame _))
  refine ⟨_, hchanged, hall.length_eq.symm, hall, ?_, ?_⟩
  · intro flowOptions hmem
    rw [(flow_mem_built _ _ _ _ _ _ _ _ _ _ hbuild hmem).1]
    exact ⟨rfl, rfl⟩
  · intro flowOptions hmem
    rw [(flow_mem_built _ _ _ _ _ _ _ _ _ _ hchanged hmem).1]
    exact ⟨rfl, rfl⟩

/-- Witness of C13: the example options with the model `AsyncInternal`, with both flags
changed. -/
theorem C13_hoisting_and_precision_are_suboptions_witness :
    buildIREEVMTransformPassPipeline exampleDebugBuild exampleBinding ⟨.none⟩
        exampleOptimization (exampleScheduling .AsyncInternal) exampleExecutableOptions
        exampleTargetOptions exampleHooks [] = Except.ok exampleAsyncStages ∧
    ∃ changed, buildIREEVMTransformPassPipeline exampleDebugBuild exampleBinding ⟨.none⟩
        { exampleOptimization with
          constExprHoisting := false, numericPrecisionReduction := true }
        (exampleScheduling .AsyncInternal) exampleExecutableOptions exampleTargetOptions
        exampleHooks [] = Except.ok changed ∧
      changed.length = exampleAsyncStages.length ∧
      List.Forall₂ (fun stage stage' => stage = stage' ∨
        (stage.isFlow = true ∧ stage'.isFlow = true)) exampleAsyncStages changed ∧
      (∀ flowOptions, Stage.FlowTransformPassPipeline flowOptions ∈ exampleAsyncStages →
        flowOptions.constExprHoisting = exampleOptimization.constExprHoisting ∧
        flowOptions.numericPrecisionReduction =
          exampleOptimization.numericPrecisionReduction) ∧
      (∀ flowOptions, Stage.FlowTransformPassPipeline flowOptions ∈ changed →
        flowOptions.constExprHoisting = false ∧
        flowOptions.numericPrecisionReduction = true) :=
  ⟨by rfl, C13_hoisting_and_precision_are_suboptions exampleDebugBuild exampleBinding ⟨.none⟩
    exampleOptimization (exampleScheduling .AsyncInternal) exampleExecutableOptions
    exampleTargetOptions exampleHooks exampleAsyncStages false true (by rfl)⟩

/-! ## The legality pass leaves the tree as it is -/

/-- C14: the pass only reads the tree. The module the walk of the pass hands back, which is
the module of the pass state, is the module the pass was given, with the same nested
operations, names, attributes, regions, blocks and order, whether the pass succeeds or
fails and whatever diagnostics were emitted before. -/
theorem C14_pass_leaves_tree_unchanged (isLinalgOp : Operation → Bool)
    (moduleOp : Operation) :
    (VerifyLinalgTransformLegalityPass.runOnOperation isLinalgOp moduleOp).moduleOp =
      moduleOp ∧
    (∀ diags, (moduleOp.walk isLinalgOp VerifyLinalgTransformLegalityPass.callback
      diags).2.1 = moduleOp) := by
  have hwalk : ∀ diags, (moduleOp.walk isLinalgOp VerifyLinalgTransformLegalityPass.callback
      diags).2.1 = moduleOp := fun diags =>
    walk_leaves_tree
      (detail.wrapperFn isLinalgOp VerifyLinalgTransformLegalityPass.callback)
      WalkOrder.PostOrder (legality_callback_leaves_attrs isLinalgOp) moduleOp diags
  refine ⟨?_, hwalk⟩
  have h := hwalk []
  unfold VerifyLinalgTransformLegalityPass.runOnOperation
  cases hi : (moduleOp.walk isLinalgOp VerifyLinalgTransformLegalityPass.callback
      []).1.wasInterrupted <;> simp [hi, h]

/-! ## Claims on the default pipeline and on the builder -/

/-- C15: the default pipeline, registered as `iree-transformation-pipeline`, calls the
builder with the options of the flags and with default hooks, which are empty. When it
succeeds, its stage list is the one `buildIREEVMTransformPassPipeline` builds from the same
options with empty hooks, and no high-level-optimization stage in it has a const-eval
builder. -/
theorem C15_default_pipeline_has_no_constEval (cfg : BuildConfig)
    (bindingFromFlags : BindingOptions) (inputFromFlags : InputDialectOptions cfg)
    (highLevelOptimizationFromFlags : HighLevelOptimizationOptions)
    (schedulingFromFlags : SchedulingOptions)
    (executableFromFlags : IREE.HAL.TargetOptions)
    (targetFromFlags : IREE.VM.TargetOptions)
    (l : OpPassManager)
    (hbuild : buildDefaultIREEVMTransformPassPipeline cfg bindingFromFlags inputFromFlags
        highLevelOptimizationFromFlags schedulingFromFlags executableFromFlags targetFromFlags
        [] = Except.ok l) :
    buildIREEVMTransformPassPipeline cfg bindingFromFlags inputFromFlags
        highLevelOptimizationFromFlags schedulingFromFlags executableFromFlags targetFromFlags
        { buildConstEvalPassPipelineCallback := Option.none } [] = Except.ok l ∧
    (∀ flowOptions, Stage.FlowTransformPassPipeline flowOptions ∈ l →
      flowOptions.buildConstEvalPassPipeline = Option.none) ∧
    (registerIREEVMTransformPassPipeline cfg bindingFromFlags inputFromFlags
        highLevelOptimizationFromFlags schedulingFromFlags executableFromFlags
        targetFromFlags).arg = "iree-transformation-pipeline" ∧
    (registerIREEVMTransformPassPipeline cfg bindingFromFlags inputFromFlags
        highLevelOptimizationFromFlags schedulingFromFlags executableFromFlags
        targetFromFlags).builder [] = Except.ok l := by
  have hb : buildIREEVMTransformPassPipeline cfg bindingFromFlags inputFromFlags
      highLevelOptimizationFromFlags schedulingFromFlags executableFromFlags targetFromFlags
      { buildConstEvalPassPipelineCallback := Option.none } [] = Except.ok l := hbuild
  refine ⟨hb, ?_, rfl, hbuild⟩
  intro flowOptions hmem
  rw [(flow_mem_built _ _ _ _ _ _ _ _ _ _ hb hmem).1]
  unfold resolvedFlowOptions
  cases highLevelOptimizationFromFlags.constEval <;> rfl

/-- Witness of C15: the flags hold the example options, const-eval requested, in a release
build. -/
theorem C15_default_pipeline_has_no_constEval_witness :
    buildDefaultIREEVMTransformPassPipeline exampleReleaseBuild exampleBinding ⟨.none⟩
        exampleOptimization (exampleScheduling .AsyncInternal) exampleExecutableOptions
        exampleTargetOptions [] = Except.ok examplePlainAsyncStages ∧
    (buildIREEVMTransformPassPipeline exampleReleaseBuild exampleBinding ⟨.none⟩
        exampleOptimization (exampleScheduling .AsyncInternal) exampleExecutableOptions
        exampleTargetOptions
        { buildConstEvalPassPipelineCallback := Option.none } [] =
      Except.ok examplePlainAsyncStages ∧
    (∀ flowOptions, Stage.FlowTransformPassPipeline flowOptions ∈ examplePlainAsyncStages →
      flowOptions.buildConstEvalPassPipeline = Option.none) ∧
    (registerIREEVMTransformPassPipeline exampleReleaseBuild exampleBinding ⟨.none⟩
        exampleOptimization (exampleScheduling .AsyncInternal) exampleExecutableOptions
        exampleTargetOptions).arg = "iree-transformation-pipeline" ∧
    (registerIREEVMTransformPassPipeline exampleReleaseBuild exampleBinding ⟨.none⟩
        exampleOptimization (exampleScheduling .AsyncInternal) exampleExecutableOptions
        exampleTargetOptions).builder [] = Except.ok examplePlainAsyncStages) :=
  ⟨by rfl, C15_default_pipeline_has_no_constEval exampleReleaseBuild exampleBinding ⟨.none⟩
    exampleOptimization (exampleScheduling .AsyncInternal) exampleExecutableOptions
    exampleTargetOptions examplePlainAsyncStages (by rfl)⟩

/-- C17: a successful build holds the high-level-optimization (Flow) stage if and only if the
execution model is not `HostOnly`; it is then in the list exactly once, and directly followed
by the scheduling-lowering (Stream) stage, which carries the statistics format and the
statistics file of the scheduling options. -/
theorem C17_flow_iff_not_hostOnly (cfg : BuildConfig)
    (bindingOptions : BindingOptions) (inputOptions : InputDialectOptions cfg)
    (highLevelOptimizationOptions : HighLevelOptimizationOptions)
    (schedulingOptions : SchedulingOptions)
    (executableOptions : IREE.HAL.TargetOptions)
    (targetOptions : IREE.VM.TargetOptions) (hooks : IREEVMPipelineHooks)
    (l : OpPassManager)
    (hbuild : buildIREEVMTransformPassPipeline cfg bindingOptions inputOptions
        highLevelOptimizationOptions schedulingOptions executableOptions targetOptions hooks
        [] = Except.ok l) :
    ((∃ flowOptions, Stage.FlowTransformPassPipeline flowOptions ∈ l) ↔
      schedulingOptions.executionModel ≠ SchedulingOptions.ExecutionModel.HostOnly) ∧
    (schedulingOptions.executionModel ≠ SchedulingOptions.ExecutionModel.HostOnly →
      ∃ pre flowOptions post,
        l = pre ++ [Stage.FlowTransformPassPipeline flowOptions,
          Stage.StreamTransformPassPipeline
            { dumpStatisticsFormat :=
                IREE.Stream.DumpOutputFormat.cast schedulingOptions.dumpStatisticsFormat
              dumpStatisticsFile := schedulingOptions.dumpStatisticsFile }] ++ post ∧
        (∀ s ∈ pre, s.isFlow = false) ∧ (∀ s ∈ post, s.isFlow = false)) ∧
    (IREE.Stream.DumpOutputFormat.cast SchedulingOptions.DumpOutputFormat.None =
        IREE.Stream.DumpOutputFormat.None ∧
      IREE.Stream.DumpOutputFormat.cast SchedulingOptions.DumpOutputFormat.Pretty =
        IREE.Stream.DumpOutputFormat.Pretty ∧
      IREE.Stream.DumpOutputFormat.cast SchedulingOptions.DumpOutputFormat.Verbose =
        IREE.Stream.DumpOutputFormat.Verbose ∧
      IREE.Stream.DumpOutputFormat.cast SchedulingOptions.DumpOutputFormat.CSV =
        IREE.Stream.DumpOutputFormat.CSV ∧
      IREE.Stream.DumpOutputFormat.cast SchedulingOptions.DumpOutputFormat.JSON =
        IREE.Stream.DumpOutputFormat.JSON) := by
  refine ⟨⟨?_, ?_⟩, ?_, ⟨rfl, rfl, rfl, rfl, rfl⟩⟩
  · rintro ⟨flowOptions, hmem⟩
    exact (flow_mem_built _ _ _ _ _ _ _ _ _ _ hbuild hmem).2
  · intro hmodel
    rw [buildIREEVMTransformPassPipeline_ok _ _ _ _ _ _ _ _ _ _ hbuild]
    exact ⟨resolvedFlowOptions highLevelOptimizationOptions hooks, by
      simp [mem_schedulingStages, hmodel]⟩
  · intro hmodel
    have hl := buildIREEVMTransformPassPipeline_ok _ _ _ _ _ _ _ _ _ _ hbuild
    subst hl
    have hpre := mem_inputConversionStages inputOptions.type
    refine ⟨inputConversionStages inputOptions.type ++
        [Stage.CommonInputConversionPassPipeline] ++ bindingStages bindingOptions ++
        stripStages highLevelOptimizationOptions,
      resolvedFlowOptions highLevelOptimizationOptions hooks,
      [hardwareAbstractionStage executableOptions schedulingOptions.executionModel,
        Stage.VMTransformPassPipeline targetOptions, Stage.DropCompilerHintsPass],
      ?_, ?_, ?_⟩
    · obtain ⟨model, fmt, file⟩ := schedulingOptions
      cases model <;> first
        | exact absurd rfl hmodel
        | simp [schedulingStages, resolvedStreamOptions]
    · intro s hs
      simp only [List.mem_append, List.mem_cons, List.mem_singleton, List.not_mem_nil,
        or_false, mem_bindingStages, mem_stripStages] at hs
      rcases hs with ((hs | rfl) | ⟨_, rfl⟩ | ⟨_, rfl⟩) | ⟨_, rfl⟩
      · have := hpre s hs
        cases s <;> simp [Stage.isInputConversion] at this <;> rfl
      all_goals rfl
    · intro s hs
      simp only [List.mem_cons, List.mem_singleton, List.not_mem_nil, or_false] at hs
      rcases hs with rfl | rfl | rfl
      · cases schedulingOptions.executionModel <;> rfl
      · rfl
      · rfl

/-- Witness of C17: the example options with input `none` and the model `AsyncInternal`. -/
theorem C17_flow_iff_not_hostOnly_witness :
    buildIREEVMTransformPassPipeline exampleDebugBuild exampleBinding ⟨.none⟩
        exampleOptimization (exampleScheduling .AsyncInternal) exampleExecutableOptions
        exampleTargetOptions exampleHooks [] = Except.ok exampleAsyncStages ∧
    (((∃ flowOptions, Stage.FlowTransformPassPipeline flowOptions ∈ exampleAsyncStages) ↔
      (exampleScheduling .AsyncInternal).executionModel ≠
        SchedulingOptions.ExecutionModel.HostOnly) ∧
    ((exampleScheduling .AsyncInternal).executionModel ≠
        SchedulingOptions.ExecutionModel.HostOnly →
      ∃ pre flowOptions post,
        exampleAsyncStages = pre ++ [Stage.FlowTransformPassPipeline flowOptions,
          Stage.StreamTransformPassPipeline
            { dumpStatisticsFormat :=
                IREE.Stream.DumpOutputFormat.cast
                  (exampleScheduling .AsyncInternal).dumpStatisticsFormat
              dumpStatisticsFile :=
                (exampleScheduling .AsyncInternal).dumpStatisticsFile }] ++ post ∧
        (∀ s ∈ pre, s.isFlow = false) ∧ (∀ s ∈ post, s.isFlow = false)) ∧
    (IREE.Stream.DumpOutputFormat.cast SchedulingOptions.DumpOutputFormat.None =
        IREE.Stream.DumpOutputFormat.None ∧
      IREE.Stream.DumpOutputFormat.cast SchedulingOptions.DumpOutputFormat.Pretty =
        IREE.Stream.DumpOutputFormat.Pretty ∧
      IREE.Stream.DumpOutputFormat.cast SchedulingOptions.DumpOutputFormat.Verbose =
        IREE.Stream.DumpOutputFormat.Verbose ∧
      IREE.Stream.DumpOutputFormat.cast SchedulingOptions.DumpOutputFormat.CSV =
        IREE.Stream.DumpOutputFormat.CSV ∧
      IREE.Stream.DumpOutputFormat.cast SchedulingOptions.DumpOutputFormat.JSON =
        IREE.Stream.DumpOutputFormat.JSON)) :=
  ⟨by rfl, C17_flow_iff_not_hostOnly exampleDebugBuild exampleBinding ⟨.none⟩
    exampleOptimization (exampleScheduling .AsyncInternal) exampleExecutableOptions
    exampleTargetOptions exampleHooks exampleAsyncStages (by rfl)⟩

/-- C18: under the execution model `HostOnly` the stage list depends on the input dialect, the
binding flags, `stripAssertions` and the bytecode target options only. Two successful
host-only builds that agree on these give equal lists, whatever `constEval`,
`constExprHoisting`, `numericPrecisionReduction`, the hook, the statistics options and the
executable target options are; the list is the input-conversion stages, the common input
normalization, the enabled binding stages, the assertion stripping if requested, the
bytecode lowering and the hint cleanup. -/
theorem C18_hostOnly_ignores_optimization_options (cfg : BuildConfig)
    (bindingOptions bindingOptions' : BindingOptions)
    (inputOptions inputOptions' : InputDialectOptions cfg)
    (highLevelOptimizationOptions highLevelOptimizationOptions' : HighLevelOptimizationOptions)
    (schedulingOptions schedulingOptions' : SchedulingOptions)
    (executableOptions executableOptions' : IREE.HAL.TargetOptions)
    (targetOptions targetOptions' : IREE.VM.TargetOptions)
    (hooks hooks' : IREEVMPipelineHooks) (l l' : OpPassManager)
    (hmodel : schedulingOptions.executionModel = SchedulingOptions.ExecutionModel.HostOnly)
    (hmodel' : schedulingOptions'.executionModel = SchedulingOptions.ExecutionModel.HostOnly)
    (hinput : inputOptions.type = inputOptions'.type)
    (hbinding : bindingOptions = bindingOptions')
    (hstrip : highLevelOptimizationOptions.stripAssertions =
      highLevelOptimizationOptions'.stripAssertions)
    (htarget : targetOptions = targetOptions')
    (hbuild : buildIREEVMTransformPassPipeline cfg bindingOptions inputOptions
        highLevelOptimizationOptions schedulingOptions executableOptions targetOptions hooks
        [] = Except.ok l)
    (hbuild' : buildIREEVMTransformPassPipeline cfg bindingOptions' inputOptions'
        highLevelOptimizationOptions' schedulingOptions' executableOptions' targetOptions'
        hooks' [] = Except.ok l') :
    l = l' ∧
    ∃ input, (∀ s ∈ input, s.isInputConversion = true) ∧
      l = input ++ [Stage.CommonInputConversionPassPipeline] ++
        (if bindingOptions.native = true then [Stage.ABITransformPassPipeline] else []) ++
        (if bindingOptions.tflite = true then [Stage.TFLiteTransformPassPipeline] else []) ++
        (if highLevelOptimizationOptions.stripAssertions = true then
          [Stage.StripDebugOpsPass] else []) ++
        [Stage.VMTransformPassPipeline targetOptions, Stage.DropCompilerHintsPass] := by
  have hl := buildIREEVMTransformPassPipeline_ok _ _ _ _ _ _ _ _ _ _ hbuild
  have hl' := buildIREEVMTransformPassPipeline_ok _ _ _ _ _ _ _ _ _ _ hbuild'
  have hs : schedulingStages highLevelOptimizationOptions schedulingOptions
      executableOptions hooks = [] := by
    obtain ⟨model, fmt, file⟩ := schedulingOptions
    simp only at hmodel
    subst hmodel
    rfl
  have hs' : schedulingStages highLevelOptimizationOptions' schedulingOptions'
      executableOptions' hooks' = [] := by
    obtain ⟨model, fmt, file⟩ := schedulingOptions'
    simp only at hmodel'
    subst hmodel'
    rfl
  have hst : stripStages highLevelOptimizationOptions' =
      stripStages highLevelOptimizationOptions := by
    unfold stripStages
    rw [hstrip]
  rw [hs] at hl
  rw [hs', hst, ← hinput, ← hbinding, ← htarget] at hl'
  refine ⟨hl.trans hl'.symm, inputConversionStages inputOptions.type,
    mem_inputConversionStages inputOptions.type, ?_⟩
  rw [hl]
  simp [bindingStages, stripStages]

/-- Witness of C18: two host-only builds with input `xla`, one in the example options with a
hook, the other without const-eval, hoisting and hook, with other statistics options and
other executable targets. -/
theorem C18_hostOnly_ignores_optimization_options_witness :
    buildIREEVMTransformPassPipeline exampleDebugBuild exampleBinding ⟨.xla rfl⟩
        exampleOptimization (exampleScheduling .HostOnly) exampleExecutableOptions
        exampleTargetOptions exampleHooks [] = Except.ok exampleHostOnlyStages ∧
    buildIREEVMTransformPassPipeline exampleDebugBuild exampleBinding ⟨.xla rfl⟩
        { constExprHoisting := false, numericPrecisionReduction := true,
          stripAssertions := true, constEval := false }
        { executionModel := .HostOnly, dumpStatisticsFormat := .CSV,
          dumpStatisticsFile := "other.csv" }
        { targets := ["vulkan", "cuda"] } exampleTargetOptions exampleEmptyHooks [] =
      Except.ok exampleHostOnlyStages ∧
    (exampleHostOnlyStages = exampleHostOnlyStages ∧
    ∃ input, (∀ s ∈ input, s.isInputConversion = true) ∧
      exampleHostOnlyStages = input ++ [Stage.CommonInputConversionPassPipeline] ++
        (if exampleBinding.native = true then [Stage.ABITransformPassPipeline] else []) ++
        (if exampleBinding.tflite = true then [Stage.TFLiteTransformPassPipeline]
          else []) ++
        (if exampleOptimization.stripAssertions = true then
          [Stage.StripDebugOpsPass] else []) ++
        [Stage.VMTransformPassPipeline exampleTargetOptions,
          Stage.DropCompilerHintsPass]) :=
  ⟨by rfl, by rfl,
    C18_hostOnly_ignores_optimization_options exampleDebugBuild exampleBinding exampleBinding
      ⟨.xla rfl⟩ ⟨.xla rfl⟩ exampleOptimization
      { constExprHoisting := false, numericPrecisionReduction := true,
        stripAssertions := true, constEval := false }
      (exampleScheduling .HostOnly)
      { executionModel := .HostOnly, dumpStatisticsFormat := .CSV,
        dumpStatisticsFile := "other.csv" }
      exampleExecutableOptions { targets := ["vulkan", "cuda"] }
      exampleTargetOptions exampleTargetOptions exampleHooks exampleEmptyHooks
      exampleHostOnlyStages exampleHostOnlyStages rfl rfl rfl rfl rfl rfl (by rfl) (by rfl)⟩

/-- C19: the builder only adds to the pass manager it is given. For every list of stages the
pass manager already holds, a successful build gives that list, unchanged and in the same
order, followed by the stages the build from an empty pass manager gives with the same
options and hooks, a build that succeeds too. -/
theorem C19_build_only_appends (cfg : BuildConfig)
    (bindingOptions : BindingOptions) (inputOptions : InputDialectOptions cfg)
    (highLevelOptimizationOptions : HighLevelOptimizationOptions)
    (schedulingOptions : SchedulingOptions)
    (executableOptions : IREE.HAL.TargetOptions)
    (targetOptions : IREE.VM.TargetOptions) (hooks : IREEVMPipelineHooks)
    (passManager l : OpPassManager)
    (hbuild : buildIREEVMTransformPassPipeline cfg bindingOptions inputOptions
        highLevelOptimizationOptions schedulingOptions executableOptions targetOptions hooks
        passManager = Except.ok l) :
    ∃ built, buildIREEVMTransformPassPipeline cfg bindingOptions inputOptions
        highLevelOptimizationOptions schedulingOptions executableOptions targetOptions hooks
        [] = Except.ok built ∧
      l = passManager ++ built ∧
      l.take passManager.length = passManager ∧
      l.drop passManager.length = built := by
  have hl := buildIREEVMTransformPassPipeline_ok _ _ _ _ _ _ _ _ _ _ hbuild
  have hok : assertionFails cfg highLevelOptimizationOptions hooks = false := by
    cases h : assertionFails cfg highLevelOptimizationOptions hooks
    · rfl
    · rw [buildIREEVMTransformPassPipeline_eq, h] at hbuild
      cases hbuild
  refine ⟨inputConversionStages inputOptions.type ++
      [Stage.CommonInputConversionPassPipeline] ++ bindingStages bindingOptions ++
      stripStages highLevelOptimizationOptions ++
      schedulingStages highLevelOptimizationOptions schedulingOptions executableOptions
        hooks ++
      [Stage.VMTransformPassPipeline targetOptions, Stage.DropCompilerHintsPass],
    ?_, hl, ?_, ?_⟩
  · rw [buildIREEVMTransformPassPipeline_eq, hok]
    rfl
  · rw [hl, List.take_left']
    rfl
  · rw [hl, List.drop_left']
    rfl

/-- Witness of C19: the example options with the model `AsyncInternal`, on a pass manager
that already holds two stages. -/
theorem C19_build_only_appends_witness :
    buildIREEVMTransformPassPipeline exampleDebugBuild exampleBinding ⟨.none⟩
        exampleOptimization (exampleScheduling .AsyncInternal) exampleExecutableOptions
        exampleTargetOptions exampleHooks
        [Stage.DropCompilerHintsPass, Stage.StripDebugOpsPass] =
      Except.ok ([Stage.DropCompilerHintsPass, Stage.StripDebugOpsPass] ++
        exampleAsyncStages) ∧
    ∃ built, buildIREEVMTransformPassPipeline exampleDebugBuild exampleBinding ⟨.none⟩
        exampleOptimization (exampleScheduling .AsyncInternal) exampleExecutableOptions
        exampleTargetOptions exampleHooks [] = Except.ok built ∧
      [Stage.DropCompilerHintsPass, Stage.StripDebugOpsPass] ++ exampleAsyncStages =
        [Stage.DropCompilerHintsPass, Stage.StripDebugOpsPass] ++ built ∧
      ([Stage.DropCompilerHintsPass, Stage.StripDebugOpsPass] ++ exampleAsyncStages).take
        [Stage.DropCompilerHintsPass, Stage.StripDebugOpsPass].length =
        [Stage.DropCompilerHintsPass, Stage.StripDebugOpsPass] ∧
      ([Stage.DropCompilerHintsPass, Stage.StripDebugOpsPass] ++ exampleAsyncStages).drop
        [Stage.DropCompilerHintsPass, Stage.StripDebugOpsPass].length = built :=
  ⟨by rfl, C19_build_only_appends exampleDebugBuild exampleBinding ⟨.none⟩
    exampleOptimization (exampleScheduling .AsyncInternal) exampleExecutableOptions
    exampleTargetOptions exampleHooks [Stage.DropCompilerHintsPass, Stage.StripDebugOpsPass]
    _ (by rfl)⟩

end iree_compiler

end mlir
